import Mathlib

/-!
# Verification of the mastra-test-ui streaming event pipeline

Shallow embedding of the server-side stream relay (`src/app/api/chat/route.ts`)
and the client-side stream reducer / SSE decoder / text-delta batcher
(the zustand chat store module), together with proofs of the spec's claims.

JavaScript runtime values are modelled by `JsValue`; property access that can
throw (access on `null`/`undefined`) is modelled in the `Except` monad, total
property access (receiver known non-nullish) by `JsValue.get`.
-/

/-- Model of a JavaScript runtime value (numbers restricted to integers;
floating point is not needed by any code path under study). -/
inductive JsValue where
  | null
  | undefined
  | bool (b : Bool)
  | num (n : Int)
  | str (s : String)
  | arr (elems : List JsValue)
  | obj (fields : List (String × JsValue))

mutual

def JsValue.decEq : (a b : JsValue) → Decidable (a = b)
  | .null, .null => .isTrue rfl
  | .undefined, .undefined => .isTrue rfl
  | .bool a, .bool b =>
      if h : a = b then .isTrue (by rw [h]) else .isFalse (by simp [h])
  | .num a, .num b =>
      if h : a = b then .isTrue (by rw [h]) else .isFalse (by simp [h])
  | .str a, .str b =>
      if h : a = b then .isTrue (by rw [h]) else .isFalse (by simp [h])
  | .arr xs, .arr ys =>
      match JsValue.decEqL xs ys with
      | .isTrue h => .isTrue (by rw [h])
      | .isFalse h => .isFalse (by simp [h])
  | .obj fs, .obj gs =>
      match JsValue.decEqF fs gs with
      | .isTrue h => .isTrue (by rw [h])
      | .isFalse h => .isFalse (by simp [h])
  | .null, .undefined => .isFalse nofun
  | .null, .bool _ => .isFalse nofun
  | .null, .num _ => .isFalse nofun
  | .null, .str _ => .isFalse nofun
  | .null, .arr _ => .isFalse nofun
  | .null, .obj _ => .isFalse nofun
  | .undefined, .null => .isFalse nofun
  | .undefined, .bool _ => .isFalse nofun
  | .undefined, .num _ => .isFalse nofun
  | .undefined, .str _ => .isFalse nofun
  | .undefined, .arr _ => .isFalse nofun
  | .undefined, .obj _ => .isFalse nofun
  | .bool _, .null => .isFalse nofun
  | .bool _, .undefined => .isFalse nofun
  | .bool _, .num _ => .isFalse nofun
  | .bool _, .str _ => .isFalse nofun
  | .bool _, .arr _ => .isFalse nofun
  | .bool _, .obj _ => .isFalse nofun
  | .num _, .null => .isFalse nofun
  | .num _, .undefined => .isFalse nofun
  | .num _, .bool _ => .isFalse nofun
  | .num _, .str _ => .isFalse nofun
  | .num _, .arr _ => .isFalse nofun
  | .num _, .obj _ => .isFalse nofun
  | .str _, .null => .isFalse nofun
  | .str _, .undefined => .isFalse nofun
  | .str _, .bool _ => .isFalse nofun
  | .str _, .num _ => .isFalse nofun
  | .str _, .arr _ => .isFalse nofun
  | .str _, .obj _ => .isFalse nofun
  | .arr _, .null => .isFalse nofun
  | .arr _, .undefined => .isFalse nofun
  | .arr _, .bool _ => .isFalse nofun
  | .arr _, .num _ => .isFalse nofun
  | .arr _, .str _ => .isFalse nofun
  | .arr _, .obj _ => .isFalse nofun
  | .obj _, .null => .isFalse nofun
  | .obj _, .undefined => .isFalse nofun
  | .obj _, .bool _ => .isFalse nofun
  | .obj _, .num _ => .isFalse nofun
  | .obj _, .str _ => .isFalse nofun
  | .obj _, .arr _ => .isFalse nofun

def JsValue.decEqL : (a b : List JsValue) → Decidable (a = b)
  | [], [] => .isTrue rfl
  | [], _ :: _ => .isFalse nofun
  | _ :: _, [] => .isFalse nofun
  | x :: xs, y :: ys =>
      match JsValue.decEq x y, JsValue.decEqL xs ys with
      | .isTrue h1, .isTrue h2 => .isTrue (by rw [h1, h2])
      | .isFalse h1, _ => .isFalse (by simp [h1])
      | _, .isFalse h2 => .isFalse (by simp [h2])

def JsValue.decEqF : (a b : List (String × JsValue)) → Decidable (a = b)
  | [], [] => .isTrue rfl
  | [], _ :: _ => .isFalse nofun
  | _ :: _, [] => .isFalse nofun
  | (k, v) :: xs, (l, w) :: ys =>
      match String.decEq k l, JsValue.decEq v w, JsValue.decEqF xs ys with
      | .isTrue h0, .isTrue h1, .isTrue h2 => .isTrue (by rw [h0, h1, h2])
      | .isFalse h0, _, _ => .isFalse (by simp [h0])
      | _, .isFalse h1, _ => .isFalse (by simp [h1])
      | _, _, .isFalse h2 => .isFalse (by simp [h2])

end

instance : DecidableEq JsValue := JsValue.decEq

namespace JsValue

/-- JavaScript truthiness. -/
def truthy : JsValue → Bool
  | .null | .undefined => false
  | .bool b => b
  | .num n => n != 0
  | .str s => s ≠ ""
  | .arr _ => true
  | .obj _ => true

/-- Is the value `null` or `undefined` (nullish)? -/
def nullish : JsValue → Bool
  | .null | .undefined => true
  | _ => false

/-- `typeof v === 'object' && v` (a truthy object-typed value: object or array;
`typeof null === 'object'` but `null` is falsy). -/
def isObjLike : JsValue → Bool
  | .obj _ | .arr _ => true
  | _ => false

/-- First-match association lookup used for object fields. -/
def lookupField : List (String × JsValue) → String → Option JsValue
  | [], _ => none
  | (k, v) :: rest, key => if k = key then some v else lookupField rest key

/-- Total property access `v.key` for a non-nullish receiver: a missing field
(and any access on a primitive) yields `undefined`. -/
def get : JsValue → String → JsValue
  | .obj fields, key => (lookupField fields key).getD .undefined
  | _, _ => .undefined

/-- Property access `v.key` with JavaScript exception semantics: throws a
`TypeError` when the receiver is `null` or `undefined`. -/
def getE : JsValue → String → Except Unit JsValue
  | .null, _ => .error ()
  | .undefined, _ => .error ()
  | v, key => .ok (v.get key)

/-- Optional chaining `v?.key`. -/
def getChain (v : JsValue) (key : String) : JsValue :=
  if v.nullish then .undefined else v.get key

end JsValue

/-- JavaScript `String.prototype.includes`: `strIncludes s sub` is true when
`sub` occurs as a contiguous substring of `s`. -/
def strIncludes (s sub : String) : Bool :=
  decide (sub.toList <:+: s.toList)

section EventMapper

/-- Helper from route.ts (lines 14–17): `createNestedPayloadEvent` wraps a type
with a (truthy) payload, returning `null` for a falsy payload. -/
def createNestedPayloadEvent (type_ : String) (payload : JsValue) : Option JsValue :=
  if payload.truthy then some (.obj [("type", .str type_), ("payload", payload)]) else none

/-- The `directPayloadEvents` table of route.ts (lines 32–38): upstream type to
normalized type, carrying the outer payload. -/
def directPayloadEvents : String → Option String
  | "routing-agent-start" => some "routing-start"
  | "routing-agent-end" => some "routing-end"
  | "agent-execution-start" => some "agent-start"
  | "agent-execution-end" => some "agent-end"
  | "network-execution-event-step-finish" => some "finish"
  | _ => none

/-- The `nestedPayloadEvents` table of route.ts (lines 45–53): upstream type to
normalized type, carrying the inner `payload.payload`. -/
def nestedPayloadEvents : String → Option String
  | "agent-execution-event-text-start" => some "text-start"
  | "agent-execution-event-text-delta" => some "text-delta"
  | "agent-execution-event-text-end" => some "text-end"
  | "agent-execution-event-tool-call-input-streaming-start" =>
      some "tool-call-input-streaming-start"
  | "agent-execution-event-tool-call" => some "tool-call"
  | "agent-execution-event-tool-result" => some "tool-result"
  | _ => none

/-- The string key a JavaScript computed member access coerces a value to only
matters here insofar as it can hit one of the fixed tables; no non-string value
coerces to any table key, so table lookup succeeds only on string types. -/
def typeString : JsValue → Option String
  | .str t => some t
  | _ => none

/-- `mapNetworkEventToClientEvent` of route.ts lines 19–73 (the retry-relay
variant, *without* a null guard): the initial `event.payload` access throws a
`TypeError` when the chunk is `null`/`undefined`.  Returns the normalized client
event, or `none` for the JavaScript `null`. -/
def mapNetworkEventCore (chunk payload : JsValue) : Option JsValue :=
  if !payload.truthy then none
  else
    let ty := typeString (chunk.get "type")
    match ty.bind directPayloadEvents with
    | some mapped => some (.obj [("type", .str mapped), ("payload", payload)])
    | none =>
      match ty.bind nestedPayloadEvents with
      | some mapped => createNestedPayloadEvent mapped (payload.get "payload")
      | none =>
        if ty = some "agent-execution-event-error" ∨ ty = some "network-execution-event-error" then
          if (payload.get "payload").truthy then
            some (.obj [("type", .str "error"), ("payload", payload.get "payload")])
          else
            some (.obj [("type", .str "error"), ("payload", payload)])
        else
          none

/-- The function proper: the body after the (possibly throwing) `event.payload`
access is `mapNetworkEventCore`. -/
def mapNetworkEventToClientEvent (chunk : JsValue) : Except Unit (Option JsValue) :=
  match chunk.getE "payload" with
  | .error e => .error e
  | .ok payload => .ok (mapNetworkEventCore chunk payload)

/-- The guarded variant of `mapNetworkEventToClientEvent` (route.ts lines
514–580): a leading `!chunk || typeof chunk !== 'object'` test makes it total;
its switch has no error case. -/
def mapNetworkEventToClientEventGuarded (chunk : JsValue) : Option JsValue :=
  if !chunk.isObjLike then none
  else
    let payload := chunk.get "payload"
    if !payload.truthy then none
    else
      let ty := typeString (chunk.get "type")
      match ty.bind directPayloadEvents with
      | some mapped => some (.obj [("type", .str mapped), ("payload", payload)])
      | none =>
        match ty.bind nestedPayloadEvents with
        | some mapped =>
            if (payload.get "payload").truthy then
              some (.obj [("type", .str mapped), ("payload", payload.get "payload")])
            else none
        | none => none

end EventMapper

section StreamRelay

/-- One SSE frame written to the response: either `data: <json(e)>\n\n` for a
normalized event `e`, or the literal sentinel `data: [DONE]\n\n`. -/
inductive Frame where
  | event (e : JsValue)
  | done
deriving DecidableEq

/-- The per-call stream cursor of `streamAgentResponse` (route.ts lines 88–89,
104–135): frames emitted so far by this call, and the two-slot type history.
The history slots hold raw `eventObj.type` values (typed `string | null`). -/
structure ChunkAcc where
  frames : List Frame
  previousLastEventType : Option JsValue
  lastEventType : Option JsValue
deriving DecidableEq

/-- The initial cursor of one upstream call. -/
def ChunkAcc.init : ChunkAcc := ⟨[], none, none⟩

/-- The total wrapper around `mapNetworkEventToClientEvent` used inside the
`onChunk` callback; the callback's `!chunk || typeof chunk !== 'object'` guard
ensures the mapper is only ever invoked on objects, where it cannot throw
(`mapNetworkEventToClientEvent_isOk_of_not_nullish` below). -/
def mapOrNull (chunk : JsValue) : Option JsValue :=
  match mapNetworkEventToClientEvent chunk with
  | .ok r => r
  | .error _ => none

/-- The `onChunk` callback of `streamAgentResponse` (route.ts lines 105–135):
skip non-objects; map (or pass through) the chunk; record its `type` into the
two-slot history when truthy; suppress `error` events (log only); enqueue every
other event as an SSE frame. -/
def onChunk (useNetworkMapper : Bool) (acc : ChunkAcc) (chunk : JsValue) : ChunkAcc :=
  if !(chunk.truthy && chunk.isObjLike) then acc
  else
    let clientEvent := if useNetworkMapper then mapOrNull chunk else some chunk
    match clientEvent with
    | none => acc
    | some ev =>
      let ty := ev.get "type"
      let acc :=
        if ty.truthy then
          { acc with previousLastEventType := acc.lastEventType, lastEventType := some ty }
        else acc
      if ty = .str "error" then acc
      else { acc with frames := acc.frames ++ [Frame.event ev] }

/-- Processing one upstream call's chunk stream (`processDataStream` driving
`onChunk` over each chunk in order). -/
def processCallChunks (useNetworkMapper : Bool) (chunks : List JsValue) (acc : ChunkAcc) : ChunkAcc :=
  chunks.foldl (onChunk useNetworkMapper) acc

/-- The synthetic continuation turn appended before each restream
(route.ts line 155). -/
def continueMessage : JsValue := .obj [("role", .str "user"), ("content", .str "continue")]

/-- The `restream-needed` diagnostic event (route.ts lines 148–151); the
`string | null` history slots serialize as JSON strings or `null`. -/
def restreamEvent (lastEventType previousLastEventType : Option JsValue) (retryCount : Nat) : JsValue :=
  .obj [("type", .str "restream-needed"),
        ("payload", .obj [("lastEventType", lastEventType.getD .null),
                          ("previousLastEventType", previousLastEventType.getD .null),
                          ("retryCount", .num retryCount)])]

/-- The terminal error event emitted after exhausted retries
(route.ts lines 169–172). -/
def errorAfterRetriesEvent : JsValue :=
  .obj [("type", .str "error"),
        ("payload", .obj [("error", .str "Stream processing failed after retries")])]

/-- The state threaded through the retry loop of `streamAgentResponse`
(route.ts lines 83–160): frames emitted so far, number of upstream calls
issued, the outgoing message list, `retryCount`, `finalPreviousLastEventType`,
and the pending exception (`thrown ≠ none` models an exception propagating out
of the loop). -/
structure RelayState where
  frames : List Frame
  callsMade : Nat
  messages : List JsValue
  retryCount : Nat
  finalPreviousLastEventType : Option JsValue
  thrown : Option String
deriving DecidableEq

/-- The `while (retryCount < maxRetries)` loop of `streamAgentResponse`.  The
upstream service is modelled by `upstream`, giving for each successive call
either its chunk list or a thrown exception.  `fuel` makes the recursion
structural: each continuing iteration increments `retryCount` by one, so
`fuel = maxRetries - retryCount` (maintained from the initial call with
`fuel = maxRetries`, `retryCount = 0`) never runs out before the loop
condition fails. -/
def relayLoop (useNetworkMapper : Bool) (upstream : Nat → Except String (List JsValue))
    (maxRetries : Nat) : Nat → RelayState → RelayState
  | 0, st => st
  | fuel + 1, st =>
    if st.retryCount < maxRetries then
      match upstream st.callsMade with
      | .error e => { st with callsMade := st.callsMade + 1, thrown := some e }
      | .ok chunks =>
        let acc := processCallChunks useNetworkMapper chunks ChunkAcc.init
        let st' := { st with frames := st.frames ++ acc.frames, callsMade := st.callsMade + 1 }
        if acc.previousLastEventType ≠ some (.str "text-end") then
          let rc := st'.retryCount + 1
          relayLoop useNetworkMapper upstream maxRetries fuel
            { st' with
              retryCount := rc
              finalPreviousLastEventType := acc.previousLastEventType
              frames := st'.frames ++
                [Frame.event (restreamEvent acc.lastEventType acc.previousLastEventType rc)]
              messages := st'.messages ++ [continueMessage] }
        else st'
    else st

/-- `streamAgentResponse` (route.ts lines 75–175): run the retry loop from a
fresh cursor, then — provided no exception propagated — emit the terminal
error event exactly when retries were exhausted and the final recorded
penultimate type was `'error'`. -/
def streamAgentResponse (useNetworkMapper : Bool) (upstream : Nat → Except String (List JsValue))
    (maxRetries : Nat) (messages : List JsValue) : RelayState :=
  let st := relayLoop useNetworkMapper upstream maxRetries maxRetries
    ⟨[], 0, messages, 0, none, none⟩
  if st.thrown.isSome then st
  else if maxRetries ≤ st.retryCount ∧
      st.finalPreviousLastEventType = some (.str "error") then
    { st with frames := st.frames ++ [Frame.event errorAfterRetriesEvent] }
  else st

/-- `createStreamingResponse` (route.ts lines 177–222): on normal completion of
`streamAgentResponse` the `[DONE]` sentinel is enqueued and the controller
closed; on an exception the catch block enqueues a single error frame and
closes.  The returned list is the full SSE frame sequence of the response
body. -/
def createStreamingResponse (useNetworkMapper : Bool)
    (upstream : Nat → Except String (List JsValue)) (maxRetries : Nat)
    (messages : List JsValue) : List Frame :=
  let st := streamAgentResponse useNetworkMapper upstream maxRetries messages
  match st.thrown with
  | none => st.frames ++ [Frame.done]
  | some e =>
    st.frames ++ [Frame.event (.obj [("type", .str "error"),
                                     ("payload", .obj [("error", .str e)])])]

end StreamRelay

section ClientModel

/-- A message identifier.  The source generates ids as
`` `${role}-${Date.now()}-${random}` `` (or `crypto.randomUUID()`); freshness of
generated ids is modelled by a per-session counter (`fresh role n`), and ids
taken verbatim from an upstream payload (`toolCallId`) by `upstream v`.  The
constructor separation models the source's reliance on generated ids never
colliding with upstream-supplied ones. -/
inductive MsgId where
  | fresh (role : String) (n : Nat)
  | upstream (v : JsValue)
deriving DecidableEq

/-- A conversation message, modelled as a JavaScript-like record: a field that
is `none` is absent from the object (`'content' in msg` is `content.isSome`).
The source's `end` field is called `endLabel` here (`end` is reserved in Lean);
`timestamp: new Date()` is wall-clock and not modelled.  Spread updates
`{...msg, f: v}` become record updates setting `f := some v`. -/
structure Msg where
  id : MsgId
  type : String
  content : Option String := none
  isStreaming : Option Bool := none
  name : Option JsValue := none
  args : Option JsValue := none
  result : Option JsValue := none
  status : Option String := none
  startLabel : Option JsValue := none
  endLabel : Option JsValue := none
  selectionReason : Option JsValue := none
  prompt : Option JsValue := none
deriving DecidableEq

/-- The zustand store state (`ChatState` of the chat store module); the
`abortController` handle is transport-level and not modelled. -/
structure ChatState where
  messages : List Msg
  isLoading : Bool
  isMainStreaming : Bool
  currentToolName : Option JsValue
  threadId : String
  resourceId : String
  debugMode : Bool
deriving DecidableEq

/-- The `TextUpdateBatcher` state: the pending per-message text map (a JS `Map`,
modelled as an association list preserving insertion order) and the
`scheduled` flag. -/
structure Batcher where
  updates : List (MsgId × String)
  scheduled : Bool
deriving DecidableEq

/-- The whole client state: store, batcher, and the id-generation counter
backing `generateMessageId`. -/
structure ClientState where
  store : ChatState
  batcher : Batcher
  nextId : Nat
deriving DecidableEq

/-- `generateMessageId(role)` (chat-utils.ts): returns a fresh id and bumps the
counter modelling uniqueness of the timestamp/random id generation. -/
def generateMessageId (role : String) (cs : ClientState) : MsgId × ClientState :=
  (.fresh role cs.nextId, { cs with nextId := cs.nextId + 1 })

/-- `hasToolError` (chat store module): heuristic over the tool result's shape;
non-objects are never errors. -/
def hasToolError (result : JsValue) : Bool :=
  if !result.isObjLike then false
  else
    (result.get "code" == JsValue.str "TOOL_EXECUTION_FAILED") ||
    (match result.get "message" with
     | .str s => strIncludes s "Error"
     | _ => false) ||
    (result.get "error" == JsValue.bool true) ||
    (result.get "isError" == JsValue.bool true) ||
    (result.get "validationErrors").truthy

/-- `updateMessageById`: map the updater over the single message with the given
id. -/
def updateMessageById (messageId : MsgId) (updater : Msg → Msg) (s : ChatState) : ChatState :=
  { s with messages := s.messages.map fun m => if m.id = messageId then updater m else m }

/-- JS `Map.get` on the association-list model. -/
def assocGet (l : List (MsgId × String)) (k : MsgId) : Option String :=
  (l.find? (fun p => p.1 == k)).map (·.2)

/-- JS `Map.set`: overwrite in place, or append a new entry. -/
def assocSet : List (MsgId × String) → MsgId → String → List (MsgId × String)
  | [], k, v => [(k, v)]
  | (k', v') :: rest, k, v =>
      if k' = k then (k, v) :: rest else (k', v') :: assocSet rest k v

/-- JavaScript string coercion as used by `existing + text` in
`TextUpdateBatcher.add`.  Array/object coercion is approximated (no claim
exercises a non-primitive delta text). -/
def jsToString : JsValue → String
  | .str s => s
  | .num n => toString n
  | .bool b => if b then "true" else "false"
  | .null => "null"
  | .undefined => "undefined"
  | .arr _ => ""
  | .obj _ => "[object Object]"

/-- `TextUpdateBatcher.add`: append the fragment to the per-message pending
buffer. -/
def Batcher.add (b : Batcher) (messageId : MsgId) (text : String) : Batcher :=
  let existing := (assocGet b.updates messageId).getD ""
  { b with updates := assocSet b.updates messageId (existing ++ text) }

/-- `TextUpdateBatcher.scheduleFlush`: arm at most one pending flush.  The
`requestAnimationFrame` callback itself is environment scheduling, modelled by
explicit `tick` items in traces. -/
def Batcher.scheduleFlush (b : Batcher) : Batcher :=
  if b.scheduled then b else { b with scheduled := true }

/-- The message-list update performed by `TextUpdateBatcher.flush`: a message
receives its pending text only when the pending text is truthy (non-empty) and
the message has a `content` field. -/
def flushMessages (updates : List (MsgId × String)) (msgs : List Msg) : List Msg :=
  msgs.map fun m =>
    match assocGet updates m.id with
    | some t =>
        if t ≠ "" ∧ m.content.isSome then { m with content := some (m.content.getD "" ++ t) }
        else m
    | none => m

/-- `TextUpdateBatcher.flush`: no-op when no updates are pending, otherwise
apply all pending buffers in one state transition and clear pending state and
the armed flag. -/
def Batcher.flush (b : Batcher) (s : ChatState) : ChatState × Batcher :=
  if b.updates.isEmpty then (s, b)
  else ({ s with messages := flushMessages b.updates s.messages }, ⟨[], false⟩)

/-- A batcher flush applied to the whole client state (the body of the
`requestAnimationFrame` callback, and of the synchronous flush in
`handleTextEnd`). -/
def flushTick (cs : ClientState) : ClientState :=
  let (s, b) := cs.batcher.flush cs.store
  { cs with store := s, batcher := b }

/-- `handleTextStart`: create a new streaming bot message (ignores the chunk),
append it, clear `isMainStreaming`, and return its id. -/
def handleTextStart (cs : ClientState) : MsgId × ClientState :=
  let (id, cs) := generateMessageId "assistant" cs
  let textMessage : Msg := { id := id, type := "bot", content := some "", isStreaming := some true }
  (id,
   { cs with store := { cs.store with
      messages := cs.store.messages ++ [textMessage]
      isMainStreaming := false } })

/-- `handleTextDelta`: when the payload's `text` is truthy and an active
message id exists, add the fragment to the batcher and arm a flush; otherwise
do nothing.  Accessing `.text` on a nullish payload throws. -/
def handleTextDelta (payload : JsValue) (active : Option MsgId) (cs : ClientState) :
    Except Unit ClientState :=
  match payload.getE "text" with
  | .error e => .error e
  | .ok text =>
    match active with
    | some id =>
        if text.truthy then
          .ok { cs with batcher := (cs.batcher.add id (jsToString text)).scheduleFlush }
        else .ok cs
    | none => .ok cs

/-- `handleTextEnd`: for an active message, synchronously flush the batcher,
mark the message non-streaming, and set `isMainStreaming`. -/
def handleTextEnd (active : Option MsgId) (cs : ClientState) : ClientState :=
  match active with
  | some id =>
    let cs := flushTick cs
    let cs := { cs with store := updateMessageById id (fun m => { m with isStreaming := some false }) cs.store }
    { cs with store := { cs.store with isMainStreaming := true } }
  | none => cs

/-- `handleToolCallStart`: create a tool message whose id is the payload's
`toolCallId` unless nullish (`??`), with defaulted tool name, and return its
id. -/
def handleToolCallStart (payload : JsValue) (cs : ClientState) :
    Except Unit (MsgId × ClientState) :=
  match payload.getE "toolCallId" with
  | .error e => .error e
  | .ok tid =>
    let (toolCallId, cs) :=
      if tid.nullish then generateMessageId "tool" cs else (.upstream tid, cs)
    let toolName := if (payload.get "toolName").truthy then payload.get "toolName"
                    else .str "Unknown Tool Name"
    let msg : Msg := { id := toolCallId, type := "tool", name := some toolName, status := some "start" }
    let dm := cs.store.debugMode
    .ok (toolCallId,
      { cs with store := { cs.store with
          messages := cs.store.messages ++ [msg]
          isMainStreaming := if dm then false else true
          currentToolName := if dm then none else some toolName } })

/-- `handleToolCall`: update the message named by the payload's truthy
`toolCallId` (`||` fallback to the active id): set `args`, advance `status` to
`toolCalling`. -/
def handleToolCall (payload : JsValue) (active : Option MsgId) (cs : ClientState) :
    Except Unit ClientState :=
  match payload.getE "toolCallId" with
  | .error e => .error e
  | .ok tid =>
    let target : Option MsgId := if tid.truthy then some (.upstream tid) else active
    match target with
    | some t =>
        .ok { cs with store := (updateMessageById t
          (fun m => { m with args := some (payload.get "args"), status := some "toolCalling" })
          cs.store) }
    | none => .ok cs

/-- `handleToolResult`: update the targeted message (explicit truthy
`toolCallId`, else the active id): set `result` and `status` by the
`hasToolError` heuristic; return `null` as the new active id only when the
active id was used as fallback. -/
def handleToolResult (payload : JsValue) (active : Option MsgId) (cs : ClientState) :
    Except Unit (Option MsgId × ClientState) :=
  match payload.getE "toolCallId" with
  | .error e => .error e
  | .ok tid =>
    let target : Option MsgId := if tid.truthy then some (.upstream tid) else active
    let cs :=
      match target with
      | some t =>
          let result := payload.get "result"
          let he := hasToolError result
          { cs with store := { cs.store with
            messages := cs.store.messages.map fun m =>
              if m.id = t then
                { m with result := some result, status := some (if he then "error" else "complete") }
              else m
            isMainStreaming := true
            currentToolName := none } }
      | none => cs
    if ¬tid.truthy ∧ active = target then .ok (none, cs)
    else .ok (active, cs)

/-- `handleRoutingStart`: create a routing message (`start` from
`payload.inputData?.primitiveId` or the `'Start'` placeholder, `end` empty),
append it, and return its id. -/
def handleRoutingStart (payload : JsValue) (cs : ClientState) :
    Except Unit (MsgId × ClientState) :=
  match payload.getE "inputData" with
  | .error e => .error e
  | .ok inputData =>
    let primitiveIdFromInput := inputData.getChain "primitiveId"
    let (routingMessageId, cs) := generateMessageId "routing" cs
    let startV := if primitiveIdFromInput.truthy then primitiveIdFromInput else .str "Start"
    let msg : Msg := { id := routingMessageId, type := "routing", isStreaming := some true,
                       startLabel := some startV, endLabel := some (.str "") }
    let dm := cs.store.debugMode
    .ok (routingMessageId,
      { cs with store := { cs.store with
          isMainStreaming := if dm then false else true
          messages := cs.store.messages ++ [msg] } })

/-- `handleRoutingEnd`: update the active routing message in place (`end`,
`selectionReason`, `prompt`, `isStreaming = false`). -/
def handleRoutingEnd (payload : JsValue) (active : Option MsgId) (cs : ClientState) :
    Except Unit ClientState :=
  match payload.getE "primitiveId" with
  | .error e => .error e
  | .ok primitiveId =>
    let selectionReason := payload.get "selectionReason"
    let prompt := payload.get "prompt"
    match active with
    | some id =>
      let cs := { cs with store := (updateMessageById id (fun m =>
          { m with endLabel := some (if primitiveId.truthy then primitiveId else .str "Finish"),
                   selectionReason := some selectionReason,
                   prompt := some prompt,
                   isStreaming := some false }) cs.store) }
      .ok { cs with store := { cs.store with isMainStreaming := true } }
    | none => .ok cs

/-- `processStreamChunk` (chat store module, routing-aware variant): dispatch
on the chunk's `type` and return the new active id.  The `.type` access throws
on a nullish chunk. -/
def processStreamChunk (chunk : JsValue) (active : Option MsgId) (cs : ClientState) :
    Except Unit (Option MsgId × ClientState) :=
  match chunk.getE "type" with
  | .error e => .error e
  | .ok ty =>
    match ty with
    | .str "routing-start" =>
        (handleRoutingStart (chunk.get "payload") cs).map fun (id, cs') => (some id, cs')
    | .str "routing-end" =>
        (handleRoutingEnd (chunk.get "payload") active cs).map fun cs' => (none, cs')
    | .str "text-start" =>
        let (id, cs') := handleTextStart cs
        .ok (some id, cs')
    | .str "text-delta" =>
        (handleTextDelta (chunk.get "payload") active cs).map fun cs' => (active, cs')
    | .str "text-end" => .ok (none, handleTextEnd active cs)
    | .str "tool-call-input-streaming-start" =>
        (handleToolCallStart (chunk.get "payload") cs).map fun (id, cs') => (some id, cs')
    | .str "tool-call" =>
        (handleToolCall (chunk.get "payload") active cs).map fun cs' => (active, cs')
    | .str "tool-result" => handleToolResult (chunk.get "payload") active cs
    | .str "finish" =>
        .ok (active, { cs with store := { cs.store with isMainStreaming := false, currentToolName := none } })
    | _ => .ok (active, cs)

/-- `processStreamChunk` as invoked from `processSSEDataLine`'s try/catch: an
exception thrown while handling the chunk is caught and the chunk skipped
(every throwing access precedes any state update, so the state is unchanged). -/
def applyChunk (chunk : JsValue) (active : Option MsgId) (cs : ClientState) :
    Option MsgId × ClientState :=
  match processStreamChunk chunk active cs with
  | .ok r => r
  | .error _ => (active, cs)

/-- One item of a client trace: a decoded stream chunk handed to the reducer,
or a fired animation-frame flush. -/
inductive ClientItem where
  | ev (chunk : JsValue)
  | tick

/-- Run a client trace through the reducer. -/
def runClientItems : List ClientItem → Option MsgId → ClientState → Option MsgId × ClientState
  | [], a, cs => (a, cs)
  | .ev c :: rest, a, cs =>
      let (a', cs') := applyChunk c a cs
      runClientItems rest a' cs'
  | .tick :: rest, a, cs => runClientItems rest a (flushTick cs)

/-- The store's initial state. -/
def initialChatState : ChatState :=
  { messages := [], isLoading := false, isMainStreaming := false, currentToolName := none,
    threadId := "", resourceId := "", debugMode := false }

/-- The initial client state: fresh store, empty batcher, id counter at 0. -/
def initialClientState : ClientState :=
  { store := initialChatState, batcher := ⟨[], false⟩, nextId := 0 }

end ClientModel

section SSEDecoder

/-- JavaScript `buffer.split('\n')` on the character list: always returns at
least one (possibly empty) part. -/
def jsSplitNLChars : List Char → List (List Char)
  | [] => [[]]
  | c :: rest =>
    if c = '\n' then [] :: jsSplitNLChars rest
    else
      match jsSplitNLChars rest with
      | [] => [[c]]
      | l :: ls => (c :: l) :: ls

/-- JavaScript `s.split('\n')`. -/
def jsSplitNL (s : String) : List String := (jsSplitNLChars s.data).map (fun l => ⟨l⟩)

/-- The whitespace class of JavaScript `String.prototype.trim` (ASCII part;
the exotic Unicode whitespace JS also strips never occurs in SSE framing). -/
def isJsWhitespace (c : Char) : Bool :=
  c = ' ' || c = '\t' || c = '\n' || c = '\r' || c = '\x0b' || c = '\x0c'

/-- JavaScript `s.trim()`. -/
def jsTrim (s : String) : String :=
  ⟨((s.data.dropWhile isJsWhitespace).reverse.dropWhile isJsWhitespace).reverse⟩

/-- JavaScript `line.startsWith('data: ')`. -/
def startsWithData (s : String) : Bool :=
  "data: ".data.isPrefixOf s.data

/-- JavaScript `line.slice(6)`. -/
def sliceFrom6 (s : String) : String := ⟨s.data.drop 6⟩

/-- `processSSEDataLine`, parameterized by the JSON parser (`parse data = none`
models `JSON.parse` throwing, which is caught, logged and skipped).  The
`[DONE]` sentinel clears the streaming flags; after a successfully handled
chunk, a redundant second `isMainStreaming := false` is applied for `finish`
chunks. -/
def processSSEDataLine (parse : String → Option JsValue) (data : String)
    (active : Option MsgId) (cs : ClientState) : Option MsgId × ClientState :=
  if data = "[DONE]" then
    (active, { cs with store := { cs.store with isMainStreaming := false, currentToolName := none } })
  else
    match parse data with
    | none => (active, cs)
    | some chunk =>
      match processStreamChunk chunk active cs with
      | .error _ => (active, cs)
      | .ok (a', cs') =>
        if chunk.get "type" = .str "finish" then
          (a', { cs' with store := { cs'.store with isMainStreaming := false } })
        else (a', cs')

/-- `processStreamLines`: process complete lines in order, skipping blank and
non-`data:` lines, stopping (`shouldBreak`) at the `[DONE]` sentinel. -/
def processStreamLines (parse : String → Option JsValue) :
    List String → Option MsgId → ClientState → Option MsgId × ClientState × Bool
  | [], a, cs => (a, cs, false)
  | line :: rest, a, cs =>
    if jsTrim line = "" then processStreamLines parse rest a cs
    else if startsWithData line then
      let data := sliceFrom6 line
      let (a', cs') := processSSEDataLine parse data a cs
      if data = "[DONE]" then (a', cs', true)
      else processStreamLines parse rest a' cs'
    else processStreamLines parse rest a cs

/-- The read loop of `processStreamResponse`: accumulate each network chunk
into the rolling buffer, split off the complete lines (re-buffering the last,
possibly incomplete line), process them, and on loop exit (stream end or
`[DONE]`) process the remaining buffer once more if non-blank.  Network chunks
are modelled as decoded strings (`TextDecoder` with `stream: true` is
transparent at character granularity). -/
def processStreamGo (parse : String → Option JsValue) :
    List String → String → Option MsgId → ClientState → ClientState
  | [], buffer, a, cs =>
    if jsTrim buffer ≠ "" then (processStreamLines parse [buffer] a cs).2.1
    else cs
  | c :: rest, buffer, a, cs =>
    let parts := jsSplitNL (buffer ++ c)
    let buffer' := (parts.getLast?).getD ""
    let lines := parts.dropLast
    let r := processStreamLines parse lines a cs
    if r.2.2 then
      if jsTrim buffer' ≠ "" then (processStreamLines parse [buffer'] r.1 r.2.1).2.1
      else r.2.1
    else processStreamGo parse rest buffer' r.1 r.2.1

/-- `processStreamResponse` over a chunked SSE body delivery. -/
def processStreamResponse (parse : String → Option JsValue) (chunks : List String)
    (cs : ClientState) : ClientState :=
  processStreamGo parse chunks "" none cs

end SSEDecoder

section TheoremVocabulary

/-- Is this frame a normalized `error` event frame? -/
def isErrorFrame : Frame → Bool
  | .event e => e.get "type" == JsValue.str "error"
  | .done => false

/-- Is this frame a `restream-needed` diagnostic frame? -/
def isRestreamFrame : Frame → Bool
  | .event e => e.get "type" == JsValue.str "restream-needed"
  | .done => false

/-- The type recorded into the relay's two-slot history by one upstream chunk
(`none` when the chunk is skipped, dropped by the mapper, or has a falsy
`type`). -/
def recordedTypeOne (useNetworkMapper : Bool) (chunk : JsValue) : Option JsValue :=
  if !(chunk.truthy && chunk.isObjLike) then none
  else
    match (if useNetworkMapper then mapOrNull chunk else some chunk) with
    | none => none
    | some ev =>
      let ty := ev.get "type"
      if ty.truthy then some ty else none

/-- The sequence of types recorded by one upstream call's chunk stream. -/
def recordedTypes (useNetworkMapper : Bool) (chunks : List JsValue) : List JsValue :=
  chunks.filterMap (recordedTypeOne useNetworkMapper)

/-- Push a list of recorded types through a two-slot (previous, last)
history. -/
def lastTwo : Option JsValue × Option JsValue → List JsValue → Option JsValue × Option JsValue
  | pl, [] => pl
  | (_, l), t :: ts => lastTwo (l, some t) ts

/-- The per-call cursor produced by one upstream call from a fresh history. -/
def callAcc (useNetworkMapper : Bool) (chunks : List JsValue) : ChunkAcc :=
  processCallChunks useNetworkMapper chunks ChunkAcc.init

/-- A normalized `text-delta` client event with the given payload. -/
def textDeltaChunk (p : JsValue) : JsValue :=
  .obj [("type", .str "text-delta"), ("payload", p)]

/-- A normalized `text-delta` client event carrying the given text fragment. -/
def deltaChunkOf (t : String) : JsValue :=
  textDeltaChunk (.obj [("text", .str t)])

/-- A normalized `text-end` client event. -/
def textEndChunk : JsValue := .obj [("type", .str "text-end"), ("payload", .obj [])]

/-- A delta/flush schedule: `some t` is a `text-delta` carrying `t`, `none` is
a fired animation-frame flush. -/
def deltaItems (sched : List (Option String)) : List ClientItem :=
  sched.map fun it =>
    match it with
    | some t => ClientItem.ev (deltaChunkOf t)
    | none => ClientItem.tick

/-- The concatenation, in arrival order, of the delta fragments of a
schedule. -/
def concatDeltas (sched : List (Option String)) : String :=
  (sched.filterMap id).foldr (· ++ ·) ""

/-- Is the message of type `bot` or `routing`? -/
def isBotOrRouting (m : Msg) : Bool := m.type == "bot" || m.type == "routing"

/-- Prepend a dangling partial line to the first part of a split. -/
def mergeHeadChars (t : List Char) : List (List Char) → List (List Char)
  | [] => [t]
  | h :: r => (t ++ h) :: r

/-- Prepend a dangling partial line to the first part of a split
(string level). -/
def mergeHeadStr (t : String) : List String → List String
  | [] => [t]
  | h :: r => (t ++ h) :: r

/-- Concatenation of the delivered network chunks (the full response body). -/
def joinChunks (l : List String) : String := l.foldr (· ++ ·) ""

/-- No data after the terminal sentinel: every line following a
`data: [DONE]` line in the stream is blank.  (The relay only ever emits
`[DONE]` as the final frame, so its streams satisfy this.) -/
def noDataAfterDone (s : String) : Bool :=
  let ls := jsSplitNL s
  (List.range ls.length).all fun i =>
    !(ls.getD i "" == "data: [DONE]") || (ls.drop (i + 1)).all fun l => jsTrim l == ""

/-- The identity-relevant skeleton of a message list: each message's id and
type. -/
def keyList (l : List Msg) : List (MsgId × String) :=
  l.map fun m => (m.id, m.type)

/-- Is this an id/type pair of a `bot` or `routing` message? -/
def isBotOrRoutingKey (p : MsgId × String) : Bool :=
  p.2 == "bot" || p.2 == "routing"

/-- The reducer's structural invariant: every `bot`/`routing` message carries a
generated id whose counter value is below the session's id counter, and those
ids are pairwise distinct. -/
def streamInv (n : Nat) (kl : List (MsgId × String)) : Prop :=
  (∀ p ∈ kl.filter isBotOrRoutingKey, ∃ r k, p.1 = MsgId.fresh r k ∧ k < n) ∧
  (kl.filter isBotOrRoutingKey).Pairwise (fun x y => x.1 ≠ y.1)

/-- The SSE frame emitted for one upstream chunk by the relay's `onChunk`
callback (`none` when the chunk is skipped, dropped by the mapper, or
suppressed as an `error` event). -/
def emitOne (useNetworkMapper : Bool) (chunk : JsValue) : Option Frame :=
  if !(chunk.truthy && chunk.isObjLike) then none
  else
    match (if useNetworkMapper then mapOrNull chunk else some chunk) with
    | none => none
    | some ev =>
      if ev.get "type" = .str "error" then none else some (.event ev)

end TheoremVocabulary

section MapperTheorems

theorem JsValue.getE_ok_of_not_nullish (v : JsValue) (k : String) (h : v.nullish = false) :
    v.getE k = .ok (v.get k) := by
  cases v <;> simp_all [JsValue.nullish, JsValue.getE]

theorem mapNetworkEventToClientEvent_ok (chunk : JsValue) (h : chunk.nullish = false) :
    mapNetworkEventToClientEvent chunk = .ok (mapNetworkEventCore chunk (chunk.get "payload")) := by
  unfold mapNetworkEventToClientEvent
  rw [JsValue.getE_ok_of_not_nullish _ _ h]

theorem nestedPayloadEvents_direct_none (t m : String) (h : nestedPayloadEvents t = some m) :
    directPayloadEvents t = none := by
  unfold nestedPayloadEvents at h
  split at h <;> simp_all <;> subst_vars <;> decide

/-- Claim C6 (counterexample): the retry-relay variant of
`mapNetworkEventToClientEvent` (route.ts lines 19–73) has no null guard, so on
the malformed non-object input `null` the `event.payload` access throws a
`TypeError` instead of returning `null`. -/
theorem mapper_throws_on_null_counterexample :
    mapNetworkEventToClientEvent JsValue.null = .error () := rfl

/-- Claim C6 (amended): the event mapper is pure; the guarded variant
(route.ts lines 514–580) returns `null` on every non-object input and never
throws, while the retry-relay variant (lines 19–73) returns a value on every
non-nullish input but throws a `TypeError` on `null`/`undefined` (its caller's
`onChunk` guard keeps such chunks away from it). -/
theorem mapper_totality_amended :
    (∀ chunk : JsValue, chunk.nullish = true → mapNetworkEventToClientEvent chunk = .error ()) ∧
    (∀ chunk : JsValue, chunk.nullish = false →
      mapNetworkEventToClientEvent chunk = .ok (mapNetworkEventCore chunk (chunk.get "payload"))) ∧
    (∀ chunk : JsValue, chunk.isObjLike = false → mapNetworkEventToClientEventGuarded chunk = none) := by
  refine ⟨?_, ?_, ?_⟩
  · intro chunk h
    cases chunk <;> simp_all [JsValue.nullish] <;> rfl
  · intro chunk h
    exact mapNetworkEventToClientEvent_ok chunk h
  · intro chunk h
    unfold mapNetworkEventToClientEventGuarded
    simp [h]

theorem mapper_totality_amended_witness :
    mapNetworkEventToClientEvent (.str "x") =
      .ok (mapNetworkEventCore (.str "x") ((JsValue.str "x").get "payload")) ∧
    mapNetworkEventToClientEventGuarded (.num 5) = none ∧
    mapNetworkEventToClientEvent .undefined = .error () :=
  ⟨mapper_totality_amended.2.1 _ (by decide),
   mapper_totality_amended.2.2 _ (by decide),
   mapper_totality_amended.1 _ (by decide)⟩

/-- Claim C5: the event mapper realizes the fixed mapping table.  For an
upstream event object whose `payload` field holds an object: a direct-table
type maps to its normalized type carrying the outer payload; a nested-table
type maps to its normalized type carrying the inner `payload.payload` object,
or to `null` when that inner payload is absent; an error type takes the inner
payload object if present, else the outer; any other type — and any event
without a `payload` field — maps to `null`. -/
theorem mapper_table_fidelity :
    (∀ fs pf t m, JsValue.lookupField fs "payload" = some (.obj pf) →
      JsValue.lookupField fs "type" = some (.str t) →
      directPayloadEvents t = some m →
      mapNetworkEventToClientEvent (.obj fs) =
        .ok (some (.obj [("type", .str m), ("payload", .obj pf)]))) ∧
    (∀ fs pf t m qf, JsValue.lookupField fs "payload" = some (.obj pf) →
      JsValue.lookupField fs "type" = some (.str t) →
      nestedPayloadEvents t = some m →
      JsValue.lookupField pf "payload" = some (.obj qf) →
      mapNetworkEventToClientEvent (.obj fs) =
        .ok (some (.obj [("type", .str m), ("payload", .obj qf)]))) ∧
    (∀ fs pf t m, JsValue.lookupField fs "payload" = some (.obj pf) →
      JsValue.lookupField fs "type" = some (.str t) →
      nestedPayloadEvents t = some m →
      JsValue.lookupField pf "payload" = none →
      mapNetworkEventToClientEvent (.obj fs) = .ok none) ∧
    (∀ fs pf t qf, JsValue.lookupField fs "payload" = some (.obj pf) →
      JsValue.lookupField fs "type" = some (.str t) →
      (t = "agent-execution-event-error" ∨ t = "network-execution-event-error") →
      JsValue.lookupField pf "payload" = some (.obj qf) →
      mapNetworkEventToClientEvent (.obj fs) =
        .ok (some (.obj [("type", .str "error"), ("payload", .obj qf)]))) ∧
    (∀ fs pf t, JsValue.lookupField fs "payload" = some (.obj pf) →
      JsValue.lookupField fs "type" = some (.str t) →
      (t = "agent-execution-event-error" ∨ t = "network-execution-event-error") →
      JsValue.lookupField pf "payload" = none →
      mapNetworkEventToClientEvent (.obj fs) =
        .ok (some (.obj [("type", .str "error"), ("payload", .obj pf)]))) ∧
    (∀ fs pf t, JsValue.lookupField fs "payload" = some (.obj pf) →
      JsValue.lookupField fs "type" = some (.str t) →
      directPayloadEvents t = none → nestedPayloadEvents t = none →
      t ≠ "agent-execution-event-error" → t ≠ "network-execution-event-error" →
      mapNetworkEventToClientEvent (.obj fs) = .ok none) ∧
    (∀ fs, JsValue.lookupField fs "payload" = none →
      mapNetworkEventToClientEvent (.obj fs) = .ok none) := by
  refine ⟨?_, ?_, ?_, ?_, ?_, ?_, ?_⟩
  · intro fs pf t m hp ht hd
    rw [mapNetworkEventToClientEvent_ok _ (by rfl)]
    simp [mapNetworkEventCore, JsValue.get, hp, ht, JsValue.truthy, typeString, hd]
  · intro fs pf t m qf hp ht hn hq
    rw [mapNetworkEventToClientEvent_ok _ (by rfl)]
    simp [mapNetworkEventCore, JsValue.get, hp, ht, JsValue.truthy, typeString, hn,
      nestedPayloadEvents_direct_none t m hn, createNestedPayloadEvent, hq]
  · intro fs pf t m hp ht hn hq
    rw [mapNetworkEventToClientEvent_ok _ (by rfl)]
    simp [mapNetworkEventCore, JsValue.get, hp, ht, JsValue.truthy, typeString, hn,
      nestedPayloadEvents_direct_none t m hn, createNestedPayloadEvent, hq]
  · intro fs pf t qf hp ht he hq
    rw [mapNetworkEventToClientEvent_ok _ (by rfl)]
    rcases he with he | he <;> subst he <;>
      simp [mapNetworkEventCore, JsValue.get, hp, ht, JsValue.truthy, typeString, hq,
        show directPayloadEvents "agent-execution-event-error" = none from rfl,
        show nestedPayloadEvents "agent-execution-event-error" = none from rfl,
        show directPayloadEvents "network-execution-event-error" = none from rfl,
        show nestedPayloadEvents "network-execution-event-error" = none from rfl]
  · intro fs pf t hp ht he hq
    rw [mapNetworkEventToClientEvent_ok _ (by rfl)]
    rcases he with he | he <;> subst he <;>
      simp [mapNetworkEventCore, JsValue.get, hp, ht, JsValue.truthy, typeString, hq,
        show directPayloadEvents "agent-execution-event-error" = none from rfl,
        show nestedPayloadEvents "agent-execution-event-error" = none from rfl,
        show directPayloadEvents "network-execution-event-error" = none from rfl,
        show nestedPayloadEvents "network-execution-event-error" = none from rfl]
  · intro fs pf t hp ht hd hn he1 he2
    rw [mapNetworkEventToClientEvent_ok _ (by rfl)]
    simp [mapNetworkEventCore, JsValue.get, hp, ht, JsValue.truthy, typeString, hd, hn, he1, he2]
  · intro fs hp
    rw [mapNetworkEventToClientEvent_ok _ (by rfl)]
    simp [mapNetworkEventCore, JsValue.get, hp, JsValue.truthy]

theorem mapper_table_fidelity_witness :
    mapNetworkEventToClientEvent
        (.obj [("type", .str "routing-agent-start"), ("payload", .obj [("a", .num 1)])]) =
      .ok (some (.obj [("type", .str "routing-start"), ("payload", .obj [("a", .num 1)])])) ∧
    mapNetworkEventToClientEvent
        (.obj [("type", .str "agent-execution-event-text-delta"),
               ("payload", .obj [("payload", .obj [("text", .str "hi")])])]) =
      .ok (some (.obj [("type", .str "text-delta"), ("payload", .obj [("text", .str "hi")])])) ∧
    mapNetworkEventToClientEvent
        (.obj [("type", .str "agent-execution-event-text-delta"), ("payload", .obj [("k", .num 2)])]) =
      .ok none ∧
    mapNetworkEventToClientEvent
        (.obj [("type", .str "network-execution-event-error"), ("payload", .obj [("m", .num 3)])]) =
      .ok (some (.obj [("type", .str "error"), ("payload", .obj [("m", .num 3)])])) ∧
    mapNetworkEventToClientEvent
        (.obj [("type", .str "mystery-event"), ("payload", .obj [])]) = .ok none ∧
    mapNetworkEventToClientEvent (.obj [("type", .str "routing-agent-start")]) = .ok none :=
  ⟨mapper_table_fidelity.1 _ [("a", .num 1)] "routing-agent-start" _ (by decide) (by decide) (by decide),
   mapper_table_fidelity.2.1 _ [("payload", .obj [("text", .str "hi")])]
     "agent-execution-event-text-delta" "text-delta" [("text", .str "hi")]
     (by decide) (by decide) (by decide) (by decide),
   mapper_table_fidelity.2.2.1 _ [("k", .num 2)] "agent-execution-event-text-delta" "text-delta"
     (by decide) (by decide) (by decide) (by decide),
   mapper_table_fidelity.2.2.2.2.1 _ [("m", .num 3)] "network-execution-event-error"
     (by decide) (by decide) (by decide) (by decide),
   mapper_table_fidelity.2.2.2.2.2.1 _ [] "mystery-event" (by decide) (by decide)
     (by decide) (by decide) (by decide) (by decide),
   mapper_table_fidelity.2.2.2.2.2.2 _ (by decide)⟩

end MapperTheorems

section RelayTheorems

theorem onChunk_spec (m : Bool) (acc : ChunkAcc) (c : JsValue) :
    onChunk m acc c =
      ⟨acc.frames ++ (emitOne m c).toList,
       match recordedTypeOne m c with
       | none => acc.previousLastEventType
       | some _ => acc.lastEventType,
       match recordedTypeOne m c with
       | none => acc.lastEventType
       | some t => some t⟩ := by
  rcases acc with ⟨fs, p, l⟩
  cases hg : (c.truthy && c.isObjLike) with
  | false => simp [onChunk, emitOne, recordedTypeOne, hg]
  | true =>
    simp only [onChunk, emitOne, recordedTypeOne, hg, Bool.not_true, Bool.false_eq_true,
      if_false]
    cases hme : (if m = true then mapOrNull c else some c) with
    | none => simp
    | some ev =>
      by_cases herr : ev.get "type" = .str "error"
      · simp [herr, JsValue.truthy]
      · by_cases hty : (ev.get "type").truthy = true <;> simp [herr, hty]

theorem processCallChunks_spec (m : Bool) (cs : List JsValue) (acc : ChunkAcc) :
    processCallChunks m cs acc =
      ⟨acc.frames ++ cs.filterMap (emitOne m),
       (lastTwo (acc.previousLastEventType, acc.lastEventType) (recordedTypes m cs)).1,
       (lastTwo (acc.previousLastEventType, acc.lastEventType) (recordedTypes m cs)).2⟩ := by
  induction cs generalizing acc with
  | nil => simp [processCallChunks, recordedTypes, lastTwo]
  | cons c cs ih =>
    have step : processCallChunks m (c :: cs) acc = processCallChunks m cs (onChunk m acc c) := rfl
    rw [step, ih, onChunk_spec]
    rcases acc with ⟨fs, p, l⟩
    cases h : recordedTypeOne m c <;> cases he : emitOne m c <;>
      simp [recordedTypes, h, he, lastTwo]

theorem lastTwo_append_two (ts : List JsValue) (pl : Option JsValue × Option JsValue)
    (a b : JsValue) : lastTwo pl (ts ++ [a, b]) = (some a, some b) := by
  induction ts generalizing pl with
  | nil => rfl
  | cons t ts ih => rcases pl with ⟨p, l⟩; exact ih (l, some t)

end RelayTheorems

section C1Theorems

theorem emitOne_eq_event (m : Bool) (c : JsValue) (f : Frame) (h : emitOne m c = some f) :
    ∃ e, f = .event e := by
  unfold emitOne at h
  split at h
  · exact absurd h (by simp)
  · split at h
    · exact absurd h (by simp)
    · split at h
      · exact absurd h (by simp)
      · exact ⟨_, (Option.some_inj.mp h).symm⟩

theorem relayLoop_no_done (m : Bool) (upstream : Nat → Except String (List JsValue))
    (maxRetries : Nat) (fuel : Nat) (st : RelayState) (h : Frame.done ∉ st.frames) :
    Frame.done ∉ (relayLoop m upstream maxRetries fuel st).frames := by
  induction fuel generalizing st with
  | zero => exact h
  | succ fuel ih =>
    unfold relayLoop
    split
    · cases hup : upstream st.callsMade with
      | error e => exact h
      | ok chunks =>
        simp only []
        split
        · apply ih
          simp only [processCallChunks_spec, List.mem_append]
          rintro ((hd | hd) | hd)
          · exact h hd
          · rcases List.mem_filterMap.mp (by simpa [ChunkAcc.init] using hd) with ⟨c, _, hc⟩
            rcases emitOne_eq_event m c _ hc with ⟨e, he⟩
            cases he
          · simp at hd
        · simp only [List.mem_append]
          rintro (hd | hd)
          · exact h hd
          · rcases List.mem_filterMap.mp (by
              simpa [processCallChunks_spec, ChunkAcc.init] using hd) with ⟨c, _, hc⟩
            rcases emitOne_eq_event m c _ hc with ⟨e, he⟩
            cases he
    · exact h

theorem streamAgentResponse_no_done (m : Bool) (upstream : Nat → Except String (List JsValue))
    (maxRetries : Nat) (msgs : List JsValue) :
    Frame.done ∉ (streamAgentResponse m upstream maxRetries msgs).frames := by
  have hloop := relayLoop_no_done m upstream maxRetries maxRetries
    ⟨[], 0, msgs, 0, none, none⟩ (by simp)
  simp only [streamAgentResponse]
  split
  · exact hloop
  · split
    · simp only [List.mem_append]
      rintro (hd | hd)
      · exact hloop hd
      · simp at hd
    · exact hloop

/-- Claim C1 (counterexample): when an exception is thrown during relaying
(here: the first upstream call fails), the catch block of
`createStreamingResponse` enqueues a single error SSE frame and closes the
stream — no `[DONE]` frame follows, contrary to the claim. -/
theorem relay_error_without_done_counterexample :
    createStreamingResponse true (fun _ => .error "upstream connection failure") 3 [] =
      [Frame.event (.obj [("type", .str "error"),
        ("payload", .obj [("error", .str "upstream connection failure")])])] ∧
    Frame.done ∉ createStreamingResponse true (fun _ => .error "upstream connection failure") 3 [] := by
  constructor
  · decide
  · decide

/-- Claim C1 (amended): on normal exit of the retry loop the relay terminates
the SSE body with the literal `[DONE]` frame; when an exception is thrown
during relaying it emits a single error SSE frame over the already-started
response and closes the byte stream *without* a `[DONE]` frame. -/
theorem relay_done_framing_amended :
    (∀ (m : Bool) (upstream : Nat → Except String (List JsValue)) (maxRetries : Nat)
      (msgs : List JsValue),
      (streamAgentResponse m upstream maxRetries msgs).thrown = none →
      createStreamingResponse m upstream maxRetries msgs =
        (streamAgentResponse m upstream maxRetries msgs).frames ++ [Frame.done]) ∧
    (∀ (m : Bool) (upstream : Nat → Except String (List JsValue)) (maxRetries : Nat)
      (msgs : List JsValue) (e : String),
      (streamAgentResponse m upstream maxRetries msgs).thrown = some e →
      createStreamingResponse m upstream maxRetries msgs =
        (streamAgentResponse m upstream maxRetries msgs).frames ++
          [Frame.event (.obj [("type", .str "error"), ("payload", .obj [("error", .str e)])])] ∧
      Frame.done ∉ createStreamingResponse m upstream maxRetries msgs) := by
  constructor
  · intro m upstream maxRetries msgs h
    simp only [createStreamingResponse, h]
  · intro m upstream maxRetries msgs e h
    have hframes := streamAgentResponse_no_done m upstream maxRetries msgs
    constructor
    · simp only [createStreamingResponse, h]
    · simp only [createStreamingResponse, h, List.mem_append]
      rintro (hd | hd)
      · exact hframes hd
      · simp at hd

theorem relay_done_framing_amended_witness :
    createStreamingResponse true (fun _ => .ok []) 0 [] =
      (streamAgentResponse true (fun _ => .ok []) 0 []).frames ++ [Frame.done] ∧
    createStreamingResponse false (fun _ => .error "boom") 2 [] =
      (streamAgentResponse false (fun _ => .error "boom") 2 []).frames ++
        [Frame.event (.obj [("type", .str "error"), ("payload", .obj [("error", .str "boom")])])] :=
  ⟨relay_done_framing_amended.1 true (fun _ => .ok []) 0 [] (by decide),
   (relay_done_framing_amended.2 false (fun _ => .error "boom") 2 [] "boom" (by decide)).1⟩

end C1Theorems

section RelayStepLemmas

theorem relayLoop_zero (m : Bool) (upstream : Nat → Except String (List JsValue))
    (maxRetries : Nat) (st : RelayState) : relayLoop m upstream maxRetries 0 st = st := rfl

theorem relayLoop_stop (m : Bool) (upstream : Nat → Except String (List JsValue))
    (maxRetries fuel : Nat) (st : RelayState) (h : ¬st.retryCount < maxRetries) :
    relayLoop m upstream maxRetries (fuel + 1) st = st := by
  rw [relayLoop, if_neg h]

theorem relayLoop_succ_err (m : Bool) (upstream : Nat → Except String (List JsValue))
    (maxRetries fuel : Nat) (st : RelayState) (e : String)
    (hlt : st.retryCount < maxRetries) (hup : upstream st.callsMade = .error e) :
    relayLoop m upstream maxRetries (fuel + 1) st =
      { st with callsMade := st.callsMade + 1, thrown := some e } := by
  rw [relayLoop, if_pos hlt, hup]

theorem relayLoop_succ_ok (m : Bool) (upstream : Nat → Except String (List JsValue))
    (maxRetries fuel : Nat) (st : RelayState) (chunks : List JsValue)
    (hlt : st.retryCount < maxRetries) (hup : upstream st.callsMade = .ok chunks) :
    relayLoop m upstream maxRetries (fuel + 1) st =
      (if (processCallChunks m chunks ChunkAcc.init).previousLastEventType ≠
          some (.str "text-end") then
        relayLoop m upstream maxRetries fuel
          { frames := st.frames ++ (processCallChunks m chunks ChunkAcc.init).frames ++
              [Frame.event (restreamEvent (processCallChunks m chunks ChunkAcc.init).lastEventType
                (processCallChunks m chunks ChunkAcc.init).previousLastEventType
                (st.retryCount + 1))]
            callsMade := st.callsMade + 1
            messages := st.messages ++ [continueMessage]
            retryCount := st.retryCount + 1
            finalPreviousLastEventType :=
              (processCallChunks m chunks ChunkAcc.init).previousLastEventType
            thrown := st.thrown }
      else
        { st with frames := st.frames ++ (processCallChunks m chunks ChunkAcc.init).frames,
                  callsMade := st.callsMade + 1 }) := by
  rw [relayLoop, if_pos hlt, hup]

end RelayStepLemmas

section C3Theorems

theorem directPayloadEvents_range (t m : String) (h : directPayloadEvents t = some m) :
    m = "routing-start" ∨ m = "routing-end" ∨ m = "agent-start" ∨ m = "agent-end" ∨
      m = "finish" := by
  unfold directPayloadEvents at h
  split at h <;> simp_all

theorem nestedPayloadEvents_range (t m : String) (h : nestedPayloadEvents t = some m) :
    m = "text-start" ∨ m = "text-delta" ∨ m = "text-end" ∨
      m = "tool-call-input-streaming-start" ∨ m = "tool-call" ∨ m = "tool-result" := by
  unfold nestedPayloadEvents at h
  split at h <;> simp_all

theorem mapNetworkEventCore_shape (chunk payload ev : JsValue)
    (h : mapNetworkEventCore chunk payload = some ev) :
    ∃ t p, ev = .obj [("type", .str t), ("payload", p)] ∧ t ≠ "restream-needed" := by
  by_cases hp : payload.truthy = true
  · cases hd : (typeString (chunk.get "type")).bind directPayloadEvents with
    | some mapped =>
      simp only [mapNetworkEventCore, hp, Bool.not_true, Bool.false_eq_true, if_false, hd,
        Option.some_inj] at h
      rcases Option.bind_eq_some.mp hd with ⟨t, _, hdt⟩
      refine ⟨mapped, payload, h.symm, ?_⟩
      rcases directPayloadEvents_range t mapped hdt with h' | h' | h' | h' | h' <;> simp [h']
    | none =>
      cases hn : (typeString (chunk.get "type")).bind nestedPayloadEvents with
      | some mapped =>
        simp only [mapNetworkEventCore, hp, Bool.not_true, Bool.false_eq_true, if_false, hd, hn,
          createNestedPayloadEvent] at h
        rcases Option.bind_eq_some.mp hn with ⟨t, _, hnt⟩
        by_cases hq : (payload.get "payload").truthy = true
        · rw [if_pos hq, Option.some_inj] at h
          refine ⟨mapped, payload.get "payload", h.symm, ?_⟩
          rcases nestedPayloadEvents_range t mapped hnt with h' | h' | h' | h' | h' | h' <;>
            simp [h']
        · rw [if_neg hq] at h
          exact absurd h (by simp)
      | none =>
        by_cases he : (typeString (chunk.get "type") = some "agent-execution-event-error" ∨
            typeString (chunk.get "type") = some "network-execution-event-error")
        · by_cases hq : (payload.get "payload").truthy = true
          · simp only [mapNetworkEventCore, hp, Bool.not_true, Bool.false_eq_true, if_false,
              hd, hn, if_pos he, if_pos hq, Option.some_inj] at h
            exact ⟨"error", payload.get "payload", h.symm, by simp⟩
          · simp only [mapNetworkEventCore, hp, Bool.not_true, Bool.false_eq_true, if_false,
              hd, hn, if_pos he, if_neg hq, Option.some_inj] at h
            exact ⟨"error", payload, h.symm, by simp⟩
        · simp only [mapNetworkEventCore, hp, Bool.not_true, Bool.false_eq_true, if_false,
            hd, hn, if_neg he] at h
          exact absurd h (by simp)
  · simp only [mapNetworkEventCore, hp] at h
    exact absurd h (by simp)

theorem mapOrNull_not_restream (c ev : JsValue) (h : mapOrNull c = some ev) :
    ¬(ev.get "type" = .str "restream-needed") := by
  unfold mapOrNull at h
  cases hmE : mapNetworkEventToClientEvent c with
  | error e => rw [hmE] at h; exact absurd h (by simp)
  | ok r =>
    rw [hmE] at h
    unfold mapNetworkEventToClientEvent at hmE
    cases hgE : c.getE "payload" with
    | error e => rw [hgE] at hmE; exact absurd hmE (by simp)
    | ok payload =>
      rw [hgE] at hmE
      have hr : mapNetworkEventCore c payload = some ev := by
        cases hmE; exact h
      rcases mapNetworkEventCore_shape c payload ev hr with ⟨t, p, hev, ht⟩
      subst hev
      simp [JsValue.get, JsValue.lookupField, ht]

theorem callAcc_no_restream (cs : List JsValue) (f : Frame)
    (hf : f ∈ (callAcc true cs).frames) : isRestreamFrame f = false := by
  rw [callAcc, processCallChunks_spec] at hf
  simp only [ChunkAcc.init, List.nil_append] at hf
  rcases List.mem_filterMap.mp hf with ⟨c, _, hc⟩
  unfold emitOne at hc
  split at hc
  · exact absurd hc (by simp)
  · split at hc
    · exact absurd hc (by simp)
    · rename_i ev hev
      split at hc
      · exact absurd hc (by simp)
      · cases hc
        have : mapOrNull c = some ev := by simpa using hev
        simp [isRestreamFrame, mapOrNull_not_restream c ev this]

theorem relayLoop_frames_mono (m : Bool) (upstream : Nat → Except String (List JsValue))
    (maxRetries fuel : Nat) (st : RelayState) :
    ∃ ext, (relayLoop m upstream maxRetries fuel st).frames = st.frames ++ ext := by
  induction fuel generalizing st with
  | zero => exact ⟨[], by simp [relayLoop_zero]⟩
  | succ fuel ih =>
    by_cases hlt : st.retryCount < maxRetries
    · cases hup : upstream st.callsMade with
      | error e =>
        rw [relayLoop_succ_err m upstream maxRetries fuel st e hlt hup]
        exact ⟨[], by simp⟩
      | ok chunks =>
        rw [relayLoop_succ_ok m upstream maxRetries fuel st chunks hlt hup]
        split
        · rcases ih _ with ⟨ext, hext⟩
          refine ⟨(processCallChunks m chunks ChunkAcc.init).frames ++
            [Frame.event (restreamEvent (processCallChunks m chunks ChunkAcc.init).lastEventType
              (processCallChunks m chunks ChunkAcc.init).previousLastEventType
              (st.retryCount + 1))] ++ ext, ?_⟩
          rw [hext]
          simp
        · exact ⟨(processCallChunks m chunks ChunkAcc.init).frames, by simp⟩
    · rw [relayLoop_stop m upstream maxRetries fuel st hlt]
      exact ⟨[], by simp⟩

theorem streamAgentResponse_first_clean (m : Bool)
    (upstream : Nat → Except String (List JsValue)) (maxRetries : Nat)
    (msgs cs0 : List JsValue) (h0 : upstream 0 = .ok cs0) (hm : 0 < maxRetries)
    (hclean : (callAcc m cs0).previousLastEventType = some (.str "text-end")) :
    streamAgentResponse m upstream maxRetries msgs =
      ⟨(callAcc m cs0).frames, 1, msgs, 0, none, none⟩ := by
  obtain ⟨f, rfl⟩ : ∃ f, maxRetries = f + 1 := ⟨maxRetries - 1, by omega⟩
  have hstep := relayLoop_succ_ok m upstream (f + 1) f
    ⟨[], 0, msgs, 0, none, none⟩ cs0 (by simp [hm]) (by simp [h0])
  rw [callAcc] at hclean
  rw [if_neg (by simp [hclean])] at hstep
  simp only [streamAgentResponse, hstep]
  have hrc : ¬(f + 1 ≤ (0 : Nat) ∧
      (none : Option JsValue) = some (JsValue.str "error")) := by simp
  simp [callAcc]

theorem streamAgentResponse_first_restream (m : Bool)
    (upstream : Nat → Except String (List JsValue)) (maxRetries : Nat)
    (msgs cs0 : List JsValue) (h0 : upstream 0 = .ok cs0) (hm : 0 < maxRetries)
    (hnc : (callAcc m cs0).previousLastEventType ≠ some (.str "text-end")) :
    ∃ rest, (streamAgentResponse m upstream maxRetries msgs).frames =
      (callAcc m cs0).frames ++
        Frame.event (restreamEvent (callAcc m cs0).lastEventType
          (callAcc m cs0).previousLastEventType 1) :: rest := by
  obtain ⟨f, rfl⟩ : ∃ f, maxRetries = f + 1 := ⟨maxRetries - 1, by omega⟩
  have hstep := relayLoop_succ_ok m upstream (f + 1) f
    ⟨[], 0, msgs, 0, none, none⟩ cs0 (by simp [hm]) (by simp [h0])
  rw [callAcc] at hnc
  rw [if_pos (by simpa using hnc)] at hstep
  rcases relayLoop_frames_mono m upstream (f + 1) f
    ⟨[] ++ (processCallChunks m cs0 ChunkAcc.init).frames ++
        [Frame.event (restreamEvent (processCallChunks m cs0 ChunkAcc.init).lastEventType
          (processCallChunks m cs0 ChunkAcc.init).previousLastEventType (0 + 1))],
      0 + 1, msgs ++ [continueMessage], 0 + 1,
      (processCallChunks m cs0 ChunkAcc.init).previousLastEventType, none⟩ with ⟨ext, hext⟩
  simp only [streamAgentResponse, hstep]
  split
  · exact ⟨ext, by rw [hext]; simp [callAcc]⟩
  · split
    · refine ⟨ext ++ [Frame.event errorAfterRetriesEvent], ?_⟩
      simp only [List.nil_append, List.append_assoc] at hext ⊢
      rw [hext]
      simp [callAcc]
    · exact ⟨ext, by rw [hext]; simp [callAcc]⟩

end C3Theorems

/-- Claim C3: the relay judges an upstream stream cleanly completed exactly
when the penultimate recorded type is `'text-end'` — with a clean first call it
returns after one upstream call with exactly that call's frames, and otherwise
it emits a `restream-needed` frame; consequently, for a first call whose
mapped event sequence ends with `text-end` followed by `finish`, the relay
makes exactly one upstream call and emits no `restream-needed` frame. -/
theorem clean_completion_criterion :
    (∀ (m : Bool) (upstream : Nat → Except String (List JsValue)) (maxRetries : Nat)
        (msgs cs0 : List JsValue), upstream 0 = .ok cs0 → 0 < maxRetries →
      ((callAcc m cs0).previousLastEventType = some (.str "text-end") →
        streamAgentResponse m upstream maxRetries msgs =
          ⟨(callAcc m cs0).frames, 1, msgs, 0, none, none⟩) ∧
      ((callAcc m cs0).previousLastEventType ≠ some (.str "text-end") →
        ∃ rest, (streamAgentResponse m upstream maxRetries msgs).frames =
          (callAcc m cs0).frames ++
            Frame.event (restreamEvent (callAcc m cs0).lastEventType
              (callAcc m cs0).previousLastEventType 1) :: rest)) ∧
    (∀ (upstream : Nat → Except String (List JsValue)) (maxRetries : Nat)
        (msgs cs0 : List JsValue) (l : List JsValue), upstream 0 = .ok cs0 → 0 < maxRetries →
      recordedTypes true cs0 = l ++ [.str "text-end", .str "finish"] →
      (streamAgentResponse true upstream maxRetries msgs).callsMade = 1 ∧
      (createStreamingResponse true upstream maxRetries msgs).countP isRestreamFrame = 0) := by
  constructor
  · intro m upstream maxRetries msgs cs0 h0 hm
    exact ⟨streamAgentResponse_first_clean m upstream maxRetries msgs cs0 h0 hm,
           streamAgentResponse_first_restream m upstream maxRetries msgs cs0 h0 hm⟩
  · intro upstream maxRetries msgs cs0 l h0 hm hrec
    have hclean : (callAcc true cs0).previousLastEventType = some (.str "text-end") := by
      rw [callAcc, processCallChunks_spec]
      simp only [ChunkAcc.init]
      rw [hrec, lastTwo_append_two]
    have hresp := streamAgentResponse_first_clean true upstream maxRetries msgs cs0 h0 hm hclean
    refine ⟨by rw [hresp], ?_⟩
    simp only [createStreamingResponse, hresp]
    rw [List.countP_append]
    have h1 : (callAcc true cs0).frames.countP isRestreamFrame = 0 :=
      List.countP_eq_zero.mpr (fun f hf => by simp [callAcc_no_restream cs0 f hf])
    simp [h1, isRestreamFrame]

theorem clean_completion_criterion_witness :
    (streamAgentResponse true (fun _ => .ok
        [.obj [("type", .str "agent-execution-event-text-end"),
               ("payload", .obj [("payload", .obj [("id", .str "m1")])])],
         .obj [("type", .str "network-execution-event-step-finish"),
               ("payload", .obj [("ok", .bool true)])]]) 3 []).callsMade = 1 ∧
    (createStreamingResponse true (fun _ => .ok
        [.obj [("type", .str "agent-execution-event-text-end"),
               ("payload", .obj [("payload", .obj [("id", .str "m1")])])],
         .obj [("type", .str "network-execution-event-step-finish"),
               ("payload", .obj [("ok", .bool true)])]]) 3 []).countP isRestreamFrame = 0 :=
  clean_completion_criterion.2 _ 3 []
    [.obj [("type", .str "agent-execution-event-text-end"),
           ("payload", .obj [("payload", .obj [("id", .str "m1")])])],
     .obj [("type", .str "network-execution-event-step-finish"),
           ("payload", .obj [("ok", .bool true)])]]
    [] rfl (by decide) (by decide)

section C2Theorems

theorem callAcc_no_error_frame (m : Bool) (cs : List JsValue) (f : Frame)
    (hf : f ∈ (callAcc m cs).frames) : isErrorFrame f = false := by
  rw [callAcc, processCallChunks_spec] at hf
  simp only [ChunkAcc.init, List.nil_append] at hf
  rcases List.mem_filterMap.mp hf with ⟨c, _, hc⟩
  unfold emitOne at hc
  split at hc
  · exact absurd hc (by simp)
  · split at hc
    · exact absurd hc (by simp)
    · rename_i ev hev
      split at hc
      · exact absurd hc (by simp)
      · rename_i hne
        cases hc
        simp [isErrorFrame, hne]

theorem relayLoop_all_fail (m : Bool) (upstream : Nat → Except String (List JsValue))
    (maxRetries : Nat) (cs : Nat → List JsValue)
    (H : ∀ i, i < maxRetries → upstream i = .ok (cs i) ∧
      (callAcc m (cs i)).previousLastEventType ≠ some (.str "text-end")) :
    ∀ fuel st, st.retryCount + fuel = maxRetries → st.callsMade = st.retryCount →
      relayLoop m upstream maxRetries fuel st =
        ⟨st.frames ++ ((List.range' st.callsMade fuel).map fun i =>
            (callAcc m (cs i)).frames ++
              [Frame.event (restreamEvent (callAcc m (cs i)).lastEventType
                (callAcc m (cs i)).previousLastEventType (i + 1))]).flatten,
         st.callsMade + fuel,
         st.messages ++ List.replicate fuel continueMessage,
         st.retryCount + fuel,
         (if fuel = 0 then st.finalPreviousLastEventType
          else (callAcc m (cs (maxRetries - 1))).previousLastEventType),
         st.thrown⟩ := by
  intro fuel
  induction fuel with
  | zero =>
    intro st _ _
    rcases st with ⟨fs, cm, ms, rc, fp, th⟩
    simp [relayLoop_zero, List.range']
  | succ fuel ih =>
    intro st hfuel hcalls
    have hlt : st.retryCount < maxRetries := by omega
    have hH := H st.callsMade (by omega)
    rw [relayLoop_succ_ok m upstream maxRetries fuel st (cs st.callsMade) hlt hH.1]
    rw [if_pos (by rw [← callAcc]; exact hH.2)]
    rw [ih _ (by simp; omega) (by simp [hcalls])]
    have hrange : List.range' st.callsMade (fuel + 1) =
        st.callsMade :: List.range' (st.callsMade + 1) fuel := rfl
    refine RelayState.mk.injEq .. ▸ ?_
    refine ⟨?_, by simp; omega, ?_, by simp; omega, ?_, rfl⟩
    · dsimp only
      rw [hrange]
      simp [callAcc, hcalls]
    · simp only [List.append_assoc, List.replicate_succ]
      simp
    · by_cases hf : fuel = 0
      · subst hf
        have : st.retryCount = maxRetries - 1 := by omega
        simp [this, callAcc, hcalls]
      · simp [hf]

end C2Theorems

theorem countP_flatten_sum (p : Frame → Bool) (segs : List (List Frame)) :
    segs.flatten.countP p = (segs.map fun s => s.countP p).sum := by
  induction segs with
  | nil => simp
  | cons s segs ih => simp [List.countP_append, ih]

theorem sum_map_one {α : Type} (l : List α) : (l.map fun _ => 1).sum = l.length := by
  induction l with
  | nil => simp
  | cons a l ih => simp [ih, Nat.add_comm]

/-- Claim C2 (counterexample): an upstream stream that always ends with a
penultimate recorded type different from `'text-end'` — but also different
from `'error'` (here `'text-start'`) — exhausts the retries with three
`restream-needed` frames yet produces *no* error SSE frame before `[DONE]`:
the terminal error frame is conditional on the final penultimate type being
literally `'error'`. -/
theorem restream_no_terminal_error_counterexample :
    (callAcc true
        [.obj [("type", .str "agent-execution-event-text-start"),
               ("payload", .obj [("payload", .obj [("id", .str "x")])])],
         .obj [("type", .str "agent-execution-event-text-delta"),
               ("payload", .obj [("payload", .obj [("text", .str "hi")])])]]
      ).previousLastEventType ≠ some (.str "text-end") ∧
    (createStreamingResponse true (fun _ => .ok
        [.obj [("type", .str "agent-execution-event-text-start"),
               ("payload", .obj [("payload", .obj [("id", .str "x")])])],
         .obj [("type", .str "agent-execution-event-text-delta"),
               ("payload", .obj [("payload", .obj [("text", .str "hi")])])]]) 3 []
      ).countP isRestreamFrame = 3 ∧
    (createStreamingResponse true (fun _ => .ok
        [.obj [("type", .str "agent-execution-event-text-start"),
               ("payload", .obj [("payload", .obj [("id", .str "x")])])],
         .obj [("type", .str "agent-execution-event-text-delta"),
               ("payload", .obj [("payload", .obj [("text", .str "hi")])])]]) 3 []
      ).countP isErrorFrame = 0 := by
  refine ⟨by decide, by decide, by decide⟩

/-- Claim C2 (amended): if every upstream call ends with a penultimate
recorded type different from `'text-end'`, the relay makes exactly
`maxRetries` upstream calls, appends exactly `maxRetries` synthetic
`"continue"` user turns, and its SSE body is exactly the per-call frames each
followed by its `restream-needed` frame (carrying the recorded types and the
incremented retry count), then one error frame **exactly when the final
penultimate recorded type was `'error'`**, then `[DONE]`; mid-stream error
events are never forwarded, and (with the network mapper) the body carries
exactly `maxRetries` `restream-needed` frames. -/
theorem restream_retry_exhaustion_amended
    (m : Bool) (upstream : Nat → Except String (List JsValue)) (maxRetries : Nat)
    (cs : Nat → List JsValue) (msgs : List JsValue)
    (H : ∀ i, i < maxRetries → upstream i = .ok (cs i) ∧
      (callAcc m (cs i)).previousLastEventType ≠ some (.str "text-end")) :
    (streamAgentResponse m upstream maxRetries msgs).callsMade = maxRetries ∧
    (streamAgentResponse m upstream maxRetries msgs).messages =
      msgs ++ List.replicate maxRetries continueMessage ∧
    createStreamingResponse m upstream maxRetries msgs =
      ((List.range maxRetries).map fun i =>
        (callAcc m (cs i)).frames ++
          [Frame.event (restreamEvent (callAcc m (cs i)).lastEventType
            (callAcc m (cs i)).previousLastEventType (i + 1))]).flatten ++
      (if 0 < maxRetries ∧ (callAcc m (cs (maxRetries - 1))).previousLastEventType =
          some (.str "error") then [Frame.event errorAfterRetriesEvent] else []) ++
      [Frame.done] ∧
    (∀ i, i < maxRetries → ∀ f ∈ (callAcc m (cs i)).frames, isErrorFrame f = false) ∧
    (m = true →
      (createStreamingResponse m upstream maxRetries msgs).countP isRestreamFrame =
        maxRetries) := by
  have loopEq := relayLoop_all_fail m upstream maxRetries cs H maxRetries
    ⟨[], 0, msgs, 0, none, none⟩ (by simp) rfl
  have hrange : List.range' 0 maxRetries = List.range maxRetries :=
    (List.range_eq_range' maxRetries).symm
  rw [hrange] at loopEq
  simp only [List.nil_append, Nat.zero_add] at loopEq
  have hout : createStreamingResponse m upstream maxRetries msgs =
      ((List.range maxRetries).map fun i =>
        (callAcc m (cs i)).frames ++
          [Frame.event (restreamEvent (callAcc m (cs i)).lastEventType
            (callAcc m (cs i)).previousLastEventType (i + 1))]).flatten ++
      (if 0 < maxRetries ∧ (callAcc m (cs (maxRetries - 1))).previousLastEventType =
          some (.str "error") then [Frame.event errorAfterRetriesEvent] else []) ++
      [Frame.done] := by
    by_cases h0 : maxRetries = 0
    · subst h0
      simp [createStreamingResponse, streamAgentResponse, relayLoop_zero]
    · rw [if_neg h0] at loopEq
      by_cases herr : (callAcc m (cs (maxRetries - 1))).previousLastEventType =
          some (.str "error")
      · simp only [createStreamingResponse, streamAgentResponse, loopEq]
        simp [herr, Nat.pos_of_ne_zero h0]
      · simp only [createStreamingResponse, streamAgentResponse, loopEq]
        simp [herr]
  refine ⟨?_, ?_, hout, ?_, ?_⟩
  · by_cases h0 : maxRetries = 0
    · subst h0
      simp [streamAgentResponse, relayLoop_zero]
    · rw [if_neg h0] at loopEq
      simp only [streamAgentResponse, loopEq]
      split <;> [skip; split] <;> rfl
  · by_cases h0 : maxRetries = 0
    · subst h0
      simp [streamAgentResponse, relayLoop_zero]
    · rw [if_neg h0] at loopEq
      simp only [streamAgentResponse, loopEq]
      split <;> [skip; split] <;> rfl
  · intro i _ f hf
    exact callAcc_no_error_frame m (cs i) f hf
  · intro hm
    subst hm
    rw [hout, List.countP_append, List.countP_append, countP_flatten_sum]
    have hseg : ∀ i ∈ List.range maxRetries,
        List.countP isRestreamFrame ((callAcc true (cs i)).frames ++
          [Frame.event (restreamEvent (callAcc true (cs i)).lastEventType
            (callAcc true (cs i)).previousLastEventType (i + 1))]) = 1 := by
      intro i _
      rw [List.countP_append]
      have hz : (callAcc true (cs i)).frames.countP isRestreamFrame = 0 :=
        List.countP_eq_zero.mpr (fun f hf => by simp [callAcc_no_restream (cs i) f hf])
      simp [hz, isRestreamFrame, restreamEvent, JsValue.get, JsValue.lookupField]
    simp only [List.map_map, Function.comp_def]
    rw [List.map_congr_left hseg, sum_map_one, List.length_range]
    have h1 : (if 0 < maxRetries ∧ (callAcc true (cs (maxRetries - 1))).previousLastEventType =
        some (.str "error") then [Frame.event errorAfterRetriesEvent]
      else ([] : List Frame)).countP isRestreamFrame = 0 := by
      split
      · simp [isRestreamFrame, errorAfterRetriesEvent, JsValue.get, JsValue.lookupField]
      · simp
    rw [h1]
    simp [isRestreamFrame]

theorem restream_retry_exhaustion_amended_witness :
    (streamAgentResponse true (fun _ => .ok
        [.obj [("type", .str "agent-execution-event-text-start"),
               ("payload", .obj [("payload", .obj [("id", .str "x")])])]]) 3 []).callsMade = 3 ∧
    (streamAgentResponse true (fun _ => .ok
        [.obj [("type", .str "agent-execution-event-text-start"),
               ("payload", .obj [("payload", .obj [("id", .str "x")])])]]) 3 []).messages =
      [] ++ List.replicate 3 continueMessage ∧
    (createStreamingResponse true (fun _ => .ok
        [.obj [("type", .str "agent-execution-event-text-start"),
               ("payload", .obj [("payload", .obj [("id", .str "x")])])]]) 3 []).countP
      isRestreamFrame = 3 := by
  have h := restream_retry_exhaustion_amended true
    (fun _ => .ok
      [.obj [("type", .str "agent-execution-event-text-start"),
             ("payload", .obj [("payload", .obj [("id", .str "x")])])]]) 3
    (fun _ =>
      [.obj [("type", .str "agent-execution-event-text-start"),
             ("payload", .obj [("payload", .obj [("id", .str "x")])])]]) []
    (fun _ _ => ⟨rfl, by
      show (callAcc true
        [.obj [("type", .str "agent-execution-event-text-start"),
               ("payload", .obj [("payload", .obj [("id", .str "x")])])]]).previousLastEventType ≠
        some (.str "text-end")
      decide⟩)
  exact ⟨h.1, h.2.1, h.2.2.2.2 rfl⟩

section C10Theorems

theorem JsValue.getE_ok_eq (v : JsValue) (k : String) (t : JsValue)
    (h : v.getE k = .ok t) : t = v.get k := by
  cases v <;> simp [JsValue.getE] at h <;> exact h.symm

/-- Claim C10: a `text-delta` event leaves the conversation state entirely
unchanged — no message created or modified, nothing added to the batcher, the
active id untouched — whenever the reducer's active message id is `null`, or
the event's `payload.text` is absent or the empty string. -/
theorem text_delta_frame_effect (p : JsValue) (a : Option MsgId) (cs : ClientState)
    (h : a = none ∨ p.get "text" = .undefined ∨ p.get "text" = .str "") :
    applyChunk (textDeltaChunk p) a cs = (a, cs) := by
  unfold applyChunk
  have hstep : processStreamChunk (textDeltaChunk p) a cs =
      (handleTextDelta p a cs).map fun cs' => (a, cs') := rfl
  rw [hstep]
  cases hpE : p.getE "text" with
  | error e => simp [handleTextDelta, hpE, Except.map]
  | ok text =>
    rcases h with h | h | h
    · subst h
      simp [handleTextDelta, hpE, Except.map]
    · have htext : text = p.get "text" := JsValue.getE_ok_eq p "text" text hpE
      rw [h] at htext
      subst htext
      cases a <;> simp [handleTextDelta, hpE, JsValue.truthy, Except.map]
    · have htext : text = p.get "text" := JsValue.getE_ok_eq p "text" text hpE
      rw [h] at htext
      subst htext
      cases a <;> simp [handleTextDelta, hpE, JsValue.truthy, Except.map]

theorem text_delta_frame_effect_witness :
    applyChunk (textDeltaChunk (.obj [])) none initialClientState =
      (none, initialClientState) ∧
    applyChunk (textDeltaChunk (.obj [("text", .str "")]))
      (some (.fresh "assistant" 0)) initialClientState =
      (some (.fresh "assistant" 0), initialClientState) :=
  ⟨text_delta_frame_effect (.obj []) none initialClientState (Or.inl rfl),
   text_delta_frame_effect (.obj [("text", .str "")]) (some (.fresh "assistant" 0))
     initialClientState (Or.inr (Or.inr (by decide)))⟩

end C10Theorems

section C7Theorems

/-- Claim C7 (counterexample): a `tool-result` event with an explicit
`toolCallId` updates the targeted tool message (here to `status = 'error'`
since the result carries `error: true`) but does **not** clear the reducer's
active id: `handleToolResult` returns the incoming active id unchanged when
the payload carries an explicit id. -/
theorem tool_result_active_id_counterexample :
    (applyChunk
      (.obj [("type", .str "tool-result"),
             ("payload", .obj [("toolCallId", .str "t1"),
                               ("result", .obj [("error", .bool true)])])])
      (some (.fresh "assistant" 0))
      ⟨⟨[{ id := .upstream (.str "t1"), type := "tool", name := some (.str "T"),
           status := some "start" }], false, false, none, "", "", false⟩,
       ⟨[], false⟩, 1⟩).1 = some (.fresh "assistant" 0) ∧
    ((applyChunk
      (.obj [("type", .str "tool-result"),
             ("payload", .obj [("toolCallId", .str "t1"),
                               ("result", .obj [("error", .bool true)])])])
      (some (.fresh "assistant" 0))
      ⟨⟨[{ id := .upstream (.str "t1"), type := "tool", name := some (.str "T"),
           status := some "start" }], false, false, none, "", "", false⟩,
       ⟨[], false⟩, 1⟩).2.store.messages.map Msg.status) = [some "error"] := by
  constructor
  · decide
  · decide

/-- Claim C7 (amended): a `tool-result` event updates the targeted tool
message — the one named by the event's explicit truthy `toolCallId`, or the
current active id when no truthy explicit id is present — setting `result` and
setting `status` to `'error'` exactly under the `hasToolError` heuristic
(failure code, `message` containing `"Error"`, `error === true`,
`isError === true`, or a truthy `validationErrors`), `'complete'` otherwise;
afterwards the active id is cleared to `null` exactly when the event carried
no truthy explicit id — with an explicit id the active id is left unchanged. -/
theorem tool_result_update_amended :
    (∀ (pf : List (String × JsValue)) (a : Option MsgId) (cs : ClientState)
       (tid : JsValue) (rf : List (String × JsValue)) (m1 m2 : List Msg) (msgT : Msg),
      JsValue.lookupField pf "toolCallId" = some tid → tid.truthy = true →
      JsValue.lookupField pf "result" = some (.obj rf) →
      cs.store.messages = m1 ++ msgT :: m2 → msgT.id = .upstream tid →
      (∀ m ∈ m1, m.id ≠ .upstream tid) → (∀ m ∈ m2, m.id ≠ .upstream tid) →
      applyChunk (.obj [("type", .str "tool-result"), ("payload", .obj pf)]) a cs =
        (a, { cs with store := { cs.store with
          messages := (m1 ++ { msgT with
            result := some (.obj rf),
            status := some (if hasToolError (.obj rf) then "error" else "complete") } :: m2),
          isMainStreaming := true,
          currentToolName := none } })) ∧
    (∀ (pf : List (String × JsValue)) (a : Option MsgId) (cs : ClientState),
      (∀ tid, JsValue.lookupField pf "toolCallId" = some tid → tid.truthy = false) →
      (applyChunk (.obj [("type", .str "tool-result"), ("payload", .obj pf)]) a cs).1 =
        none) ∧
    (∀ rf : List (String × JsValue),
      hasToolError (.obj rf) = true ↔
        ((JsValue.obj rf).get "code" = .str "TOOL_EXECUTION_FAILED" ∨
         (∃ s, (JsValue.obj rf).get "message" = .str s ∧ strIncludes s "Error" = true) ∨
         (JsValue.obj rf).get "error" = .bool true ∨
         (JsValue.obj rf).get "isError" = .bool true ∨
         ((JsValue.obj rf).get "validationErrors").truthy = true)) := by
  refine ⟨?_, ?_, ?_⟩
  · intro pf a cs tid rf m1 m2 msgT htid htruthy hr hmsgs hid h1 h2
    unfold applyChunk
    have hstep : processStreamChunk
        (.obj [("type", .str "tool-result"), ("payload", .obj pf)]) a cs =
        handleToolResult (.obj pf) a cs := rfl
    rw [hstep]
    have htidE : (JsValue.obj pf).getE "toolCallId" = .ok tid := by
      simp [JsValue.getE, JsValue.get, htid]
    have hrE : (JsValue.obj pf).get "result" = .obj rf := by
      simp [JsValue.get, hr]
    unfold handleToolResult
    rw [htidE]
    simp only [htruthy, if_true, hrE]
    have hmap : cs.store.messages.map (fun m =>
        if m.id = MsgId.upstream tid then
          { m with
            result := some (.obj rf),
            status := some (if hasToolError (.obj rf) then "error" else "complete") }
        else m) =
        m1 ++ { msgT with
          result := some (.obj rf),
          status := some (if hasToolError (.obj rf) then "error" else "complete") } :: m2 := by
      rw [hmsgs, List.map_append, List.map_cons, if_pos hid]
      congr 1
      · rw [List.map_congr_left (fun m hm => if_neg (h1 m hm))]
        simp
      · congr 1
        rw [List.map_congr_left (fun m hm => if_neg (h2 m hm))]
        simp
    simp only [hmap]
    simp
  · intro pf a cs hfalsy
    unfold applyChunk
    have hstep : processStreamChunk
        (.obj [("type", .str "tool-result"), ("payload", .obj pf)]) a cs =
        handleToolResult (.obj pf) a cs := rfl
    rw [hstep]
    have hfv : ((JsValue.lookupField pf "toolCallId").getD JsValue.undefined).truthy = false := by
      cases htid : JsValue.lookupField pf "toolCallId" with
      | none => simp [JsValue.truthy]
      | some tid => simpa using hfalsy tid htid
    have htidE : (JsValue.obj pf).getE "toolCallId" =
        .ok ((JsValue.lookupField pf "toolCallId").getD JsValue.undefined) := by
      simp [JsValue.getE, JsValue.get]
    unfold handleToolResult
    rw [htidE]
    simp [hfv]
  · intro rf
    unfold hasToolError
    simp only [JsValue.isObjLike, Bool.not_true, Bool.false_eq_true, if_false,
      Bool.or_eq_true, beq_iff_eq]
    constructor
    · rintro ((((h | h) | h) | h) | h)
      · exact Or.inl h
      · refine Or.inr (Or.inl ?_)
        cases hm : (JsValue.obj rf).get "message" with
        | str s => rw [hm] at h; exact ⟨s, rfl, by simpa using h⟩
        | null => rw [hm] at h; simp at h
        | undefined => rw [hm] at h; simp at h
        | bool b => rw [hm] at h; simp at h
        | num n => rw [hm] at h; simp at h
        | arr el => rw [hm] at h; simp at h
        | obj fl => rw [hm] at h; simp at h
      · exact Or.inr (Or.inr (Or.inl h))
      · exact Or.inr (Or.inr (Or.inr (Or.inl h)))
      · exact Or.inr (Or.inr (Or.inr (Or.inr h)))
    · rintro (h | ⟨s, hs, h⟩ | h | h | h)
      · exact Or.inl (Or.inl (Or.inl (Or.inl h)))
      · refine Or.inl (Or.inl (Or.inl (Or.inr ?_)))
        rw [hs]
        exact h
      · exact Or.inl (Or.inl (Or.inr h))
      · exact Or.inl (Or.inr h)
      · exact Or.inr h

theorem tool_result_update_amended_witness :
    applyChunk (.obj [("type", .str "tool-result"),
        ("payload", .obj [("toolCallId", .str "t1"),
                          ("result", .obj [("isError", .bool true)])])])
      none
      ⟨⟨[{ id := .upstream (.str "t1"), type := "tool", name := some (.str "T"),
           status := some "toolCalling" }], false, false, none, "", "", false⟩,
       ⟨[], false⟩, 1⟩ =
      (none,
       ⟨⟨[{ id := .upstream (.str "t1"), type := "tool", name := some (.str "T"),
            status := some (if hasToolError (.obj [("isError", .bool true)]) then "error"
              else "complete"),
            result := some (.obj [("isError", .bool true)]) }], false, true, none, "", "", false⟩,
        ⟨[], false⟩, 1⟩) ∧
    (applyChunk (.obj [("type", .str "tool-result"), ("payload", .obj [])])
      (some (.fresh "assistant" 4)) initialClientState).1 = none ∧
    (hasToolError (.obj [("isError", .bool true)]) = true ↔
      ((JsValue.obj [("isError", .bool true)]).get "code" = .str "TOOL_EXECUTION_FAILED" ∨
       (∃ s, (JsValue.obj [("isError", .bool true)]).get "message" = .str s ∧
         strIncludes s "Error" = true) ∨
       (JsValue.obj [("isError", .bool true)]).get "error" = .bool true ∨
       (JsValue.obj [("isError", .bool true)]).get "isError" = .bool true ∨
       ((JsValue.obj [("isError", .bool true)]).get "validationErrors").truthy = true)) :=
  ⟨tool_result_update_amended.1 [("toolCallId", .str "t1"),
      ("result", .obj [("isError", .bool true)])] none _ (.str "t1")
      [("isError", .bool true)] [] []
      { id := .upstream (.str "t1"), type := "tool", name := some (.str "T"),
        status := some "toolCalling" }
      (by decide) (by decide) (by decide) rfl
      (by decide) (by intro m hm; cases hm) (by intro m hm; cases hm),
   tool_result_update_amended.2.1 [] (some (.fresh "assistant" 4)) initialClientState
     (by intro tid htid; cases htid),
   tool_result_update_amended.2.2 [("isError", .bool true)]⟩

end C7Theorems

section C4Theorems

theorem assocGet_single_ne (b k : MsgId) (p : String) (h : k ≠ b) :
    assocGet [(b, p)] k = none := by
  simp [assocGet, List.find?, beq_eq_false_iff_ne.mpr (fun hc => h hc.symm)]

theorem assocGet_single_eq (b : MsgId) (p : String) : assocGet [(b, p)] b = some p := by
  simp [assocGet, List.find?]

theorem flushMessages_single (b : MsgId) (p : String) (m1 m2 : List Msg) (msgB : Msg)
    (hid : msgB.id = b) (hcont : msgB.content.isSome)
    (hp : p ≠ "") (h1 : ∀ m ∈ m1, m.id ≠ b) (h2 : ∀ m ∈ m2, m.id ≠ b) :
    flushMessages [(b, p)] (m1 ++ msgB :: m2) =
      m1 ++ { msgB with content := some (msgB.content.getD "" ++ p) } :: m2 := by
  unfold flushMessages
  rw [List.map_append, List.map_cons]
  congr 1
  · rw [List.map_congr_left (fun m hm => by rw [assocGet_single_ne b m.id p (h1 m hm)])]
    simp
  · congr 1
    · rw [hid, assocGet_single_eq]
      simp [hp, hcont]
    · rw [List.map_congr_left (fun m hm => by rw [assocGet_single_ne b m.id p (h2 m hm)])]
      simp

theorem updateMessageById_split (b : MsgId) (g : Msg → Msg) (m1 m2 : List Msg) (msgB : Msg)
    (S : ChatState) (hid : msgB.id = b)
    (hS : S.messages = m1 ++ msgB :: m2)
    (h1 : ∀ m ∈ m1, m.id ≠ b) (h2 : ∀ m ∈ m2, m.id ≠ b) :
    updateMessageById b g S = { S with messages := m1 ++ g msgB :: m2 } := by
  unfold updateMessageById
  rw [hS, List.map_append, List.map_cons, if_pos hid]
  congr 2
  · rw [List.map_congr_left (fun m hm => if_neg (h1 m hm))]
    simp
  · rw [List.map_congr_left (fun m hm => if_neg (h2 m hm))]
    simp

theorem runDeltaEnd (b : MsgId) (c0 : String) (m1 m2 : List Msg) (msgB : Msg)
    (hid : msgB.id = b) (h1 : ∀ m ∈ m1, m.id ≠ b) (h2 : ∀ m ∈ m2, m.id ≠ b) :
    ∀ (sched : List (Option String)) (S : ChatState) (B : Batcher) (n : Nat)
      (done pending : String),
      S.messages = m1 ++ { msgB with content := some (c0 ++ done) } :: m2 →
      (B.updates = [] ∧ pending = "" ∨ B.updates = [(b, pending)] ∧ pending ≠ "") →
      (runClientItems (deltaItems sched ++ [.ev textEndChunk]) (some b) ⟨S, B, n⟩).1 = none ∧
      (runClientItems (deltaItems sched ++ [.ev textEndChunk]) (some b)
        ⟨S, B, n⟩).2.store.messages =
        m1 ++ { msgB with
          content := some (c0 ++ (done ++ (pending ++ concatDeltas sched))),
          isStreaming := some false } :: m2 ∧
      (runClientItems (deltaItems sched ++ [.ev textEndChunk]) (some b)
        ⟨S, B, n⟩).2.batcher.updates = [] := by
  intro sched
  induction sched with
  | nil =>
    intro S B n done pending hS hB
    have hrun : runClientItems (deltaItems [] ++ [.ev textEndChunk]) (some b) ⟨S, B, n⟩ =
        (none, handleTextEnd (some b) ⟨S, B, n⟩) := rfl
    rw [hrun]
    rcases hB with ⟨hB, hp⟩ | ⟨hB, hp⟩
    · subst hp
      have hft : flushTick ⟨S, B, n⟩ = ⟨S, B, n⟩ := by
        unfold flushTick Batcher.flush
        rw [hB]
        simp
      simp only [handleTextEnd, hft]
      rw [updateMessageById_split b _ m1 m2 { msgB with content := some (c0 ++ done) } S
        (by simp [hid]) hS h1 h2]
      refine ⟨by simp, ?_, by simp [hB]⟩
      simp [concatDeltas]
    · have hft : flushTick ⟨S, B, n⟩ =
          ⟨{ S with messages :=
              m1 ++ { msgB with content := some ((c0 ++ done) ++ pending) } :: m2 },
           ⟨[], false⟩, n⟩ := by
        unfold flushTick Batcher.flush
        rw [hB]
        simp only [List.isEmpty_cons, Bool.false_eq_true, if_false]
        rw [hS, flushMessages_single b pending m1 m2 _ (by simp [hid]) (by simp) hp h1 h2]
        rfl
      simp only [handleTextEnd, hft]
      rw [updateMessageById_split b _ m1 m2
        { msgB with content := some ((c0 ++ done) ++ pending) } _ (by simp [hid]) rfl h1 h2]
      refine ⟨by simp, ?_, by simp⟩
      simp [concatDeltas, String.append_assoc]
  | cons item rest ih =>
    intro S B n done pending hS hB
    cases item with
    | none =>
      have hrun : runClientItems (deltaItems (none :: rest) ++ [.ev textEndChunk]) (some b)
          ⟨S, B, n⟩ =
          runClientItems (deltaItems rest ++ [.ev textEndChunk]) (some b)
            (flushTick ⟨S, B, n⟩) := rfl
      rw [hrun]
      rcases hB with ⟨hB, hp⟩ | ⟨hB, hp⟩
      · subst hp
        have hft : flushTick ⟨S, B, n⟩ = ⟨S, B, n⟩ := by
          unfold flushTick Batcher.flush
          rw [hB]
          simp
        rw [hft]
        have := ih S B n done "" hS (Or.inl ⟨hB, rfl⟩)
        simpa [concatDeltas] using this
      · have hft : flushTick ⟨S, B, n⟩ =
            ⟨{ S with messages :=
                m1 ++ { msgB with content := some ((c0 ++ done) ++ pending) } :: m2 },
             ⟨[], false⟩, n⟩ := by
          unfold flushTick Batcher.flush
          rw [hB]
          simp only [List.isEmpty_cons, Bool.false_eq_true, if_false]
          rw [hS, flushMessages_single b pending m1 m2 _ (by simp [hid]) (by simp) hp h1 h2]
          rfl
        rw [hft]
        have := ih { S with messages :=
            m1 ++ { msgB with content := some ((c0 ++ done) ++ pending) } :: m2 }
          ⟨[], false⟩ n (done ++ pending) ""
          (by simp [String.append_assoc]) (Or.inl ⟨rfl, rfl⟩)
        simpa [String.append_assoc, concatDeltas] using this
    | some t =>
      by_cases ht : t = ""
      · subst ht
        have hrun : runClientItems (deltaItems (some "" :: rest) ++ [.ev textEndChunk]) (some b)
            ⟨S, B, n⟩ =
            runClientItems (deltaItems rest ++ [.ev textEndChunk]) (some b) ⟨S, B, n⟩ := rfl
        rw [hrun]
        have := ih S B n done pending hS hB
        simpa [concatDeltas] using this
      · have happly : applyChunk (deltaChunkOf t) (some b) ⟨S, B, n⟩ =
            (some b, ⟨S, (B.add b (jsToString (.str t))).scheduleFlush, n⟩) := by
          unfold applyChunk
          have hstep : processStreamChunk (deltaChunkOf t) (some b) ⟨S, B, n⟩ =
              (handleTextDelta (.obj [("text", .str t)]) (some b) ⟨S, B, n⟩).map
                fun cs' => (some b, cs') := rfl
          rw [hstep]
          unfold handleTextDelta
          simp [JsValue.getE, JsValue.get, JsValue.lookupField, JsValue.truthy, ht, Except.map]
        have hrun : runClientItems (deltaItems (some t :: rest) ++ [.ev textEndChunk]) (some b)
            ⟨S, B, n⟩ =
            runClientItems (deltaItems rest ++ [.ev textEndChunk]) (some b)
              ⟨S, (B.add b (jsToString (.str t))).scheduleFlush, n⟩ := by
          show (let r := applyChunk (deltaChunkOf t) (some b) ⟨S, B, n⟩
            runClientItems (deltaItems rest ++ [.ev textEndChunk]) r.1 r.2) = _
          rw [happly]
        rw [hrun]
        have hadd : (B.add b (jsToString (.str t))).updates = [(b, pending ++ t)] := by
          unfold Batcher.add
          rcases hB with ⟨hB, hp⟩ | ⟨hB, hp⟩
          · subst hp
            rw [hB]
            simp [assocGet, assocSet, jsToString]
          · rw [hB, assocGet_single_eq]
            simp [assocSet, jsToString]
        have hsf : ((B.add b (jsToString (.str t))).scheduleFlush).updates =
            [(b, pending ++ t)] := by
          unfold Batcher.scheduleFlush
          split <;> simp [hadd]
        have hne : pending ++ t ≠ "" := by
          intro hc
          apply ht
          have hdata : pending.data ++ t.data = [] := by
            have h' := congrArg String.data hc
            simpa [String.data_append] using h'
          have hts : t.data = [] := (List.append_eq_nil.mp hdata).2
          cases t with
          | mk d =>
            cases hts
            decide
        have := ih S ((B.add b (jsToString (.str t))).scheduleFlush) n done (pending ++ t)
          hS (Or.inr ⟨hsf, hne⟩)
        simpa [String.append_assoc, concatDeltas] using this

/-- Claim C4: for every schedule of `text-delta` fragments interleaved with
arbitrarily-timed batch flushes and followed by a `text-end` event, the active
bot message's final content is the exact concatenation of the fragments in
arrival order, `isStreaming` ends `false`, the batcher holds no leftover
delta, and the active id is cleared — the `text-end` handler's unconditional
synchronous flush guarantees no delta is lost or applied after the end
marker. -/
theorem text_delta_batching_concat (b : MsgId) (c0 : String) (m1 m2 : List Msg)
    (msgB : Msg) (cs : ClientState) (sched : List (Option String))
    (hid : msgB.id = b) (hcont : msgB.content = some c0)
    (h1 : ∀ m ∈ m1, m.id ≠ b) (h2 : ∀ m ∈ m2, m.id ≠ b)
    (hmsgs : cs.store.messages = m1 ++ msgB :: m2)
    (hbat : cs.batcher.updates = []) :
    (runClientItems (deltaItems sched ++ [.ev textEndChunk]) (some b) cs).1 = none ∧
    (runClientItems (deltaItems sched ++ [.ev textEndChunk]) (some b) cs).2.store.messages =
      m1 ++ { msgB with
        content := some (c0 ++ concatDeltas sched),
        isStreaming := some false } :: m2 ∧
    (runClientItems (deltaItems sched ++ [.ev textEndChunk]) (some b)
      cs).2.batcher.updates = [] := by
  obtain ⟨S, B, n⟩ := cs
  have hmsg0 : S.messages = m1 ++ { msgB with content := some (c0 ++ "") } :: m2 := by
    have hcol : ({ msgB with content := some (c0 ++ "") } : Msg) = msgB := by
      rw [show c0 ++ "" = c0 by simp, ← hcont]
    rw [hcol]
    exact hmsgs
  have h := runDeltaEnd b c0 m1 m2 msgB hid h1 h2 sched S B n "" ""
    hmsg0 (Or.inl ⟨hbat, rfl⟩)
  simpa using h

theorem text_delta_batching_concat_witness :
    (runClientItems (deltaItems [some "Hel", none, some "lo"] ++ [.ev textEndChunk])
      (some (.fresh "assistant" 0))
      ⟨⟨[{ id := .fresh "assistant" 0
           type := "bot"
           content := some ""
           isStreaming := some true }], false, false, none, "", "", false⟩,
       ⟨[], false⟩, 1⟩).2.store.messages =
      [] ++ { ({ id := .fresh "assistant" 0
                 type := "bot"
                 content := some ""
                 isStreaming := some true } : Msg) with
              content := some ("" ++ concatDeltas [some "Hel", none, some "lo"])
              isStreaming := some false } :: [] :=
  (text_delta_batching_concat (.fresh "assistant" 0) "" [] []
    { id := .fresh "assistant" 0
      type := "bot"
      content := some ""
      isStreaming := some true }
    ⟨⟨[{ id := .fresh "assistant" 0
         type := "bot"
         content := some ""
         isStreaming := some true }], false, false, none, "", "", false⟩,
     ⟨[], false⟩, 1⟩
    [some "Hel", none, some "lo"] rfl rfl
    (by intro m hm; cases hm) (by intro m hm; cases hm) rfl rfl).2.1


end C4Theorems

section C9Theorems

theorem keyList_map (g : Msg → Msg) (hg : ∀ m, (g m).id = m.id ∧ (g m).type = m.type)
    (l : List Msg) : keyList (l.map g) = keyList l := by
  unfold keyList
  rw [List.map_map]
  exact List.map_congr_left fun m _ => by simp [Function.comp, (hg m).1, (hg m).2]

theorem keyList_append_one (l : List Msg) (m : Msg) :
    keyList (l ++ [m]) = keyList l ++ [(m.id, m.type)] := by
  simp [keyList]

theorem updateMessageById_keyList (t : MsgId) (g : Msg → Msg)
    (hg : ∀ m, (g m).id = m.id ∧ (g m).type = m.type) (S : ChatState) :
    keyList (updateMessageById t g S).messages = keyList S.messages := by
  unfold updateMessageById
  exact keyList_map _ (fun m => by
    by_cases hm : m.id = t <;> simp [hm, hg m]) S.messages

theorem flushMessages_keyList (u : List (MsgId × String)) (l : List Msg) :
    keyList (flushMessages u l) = keyList l := by
  unfold flushMessages
  exact keyList_map _ (fun m => by
    cases hq : assocGet u m.id
    · simp [hq]
    · simp only [hq]
      split <;> simp) l

theorem flushTick_keyList (cs : ClientState) :
    keyList (flushTick cs).store.messages = keyList cs.store.messages ∧
    (flushTick cs).nextId = cs.nextId := by
  unfold flushTick Batcher.flush
  by_cases hb : cs.batcher.updates.isEmpty <;>
    simp [hb, flushMessages_keyList]

set_option maxHeartbeats 1000000 in
theorem processStreamChunk_shape (c : JsValue) (a : Option MsgId) (cs : ClientState)
    (r : Option MsgId × ClientState) (h : processStreamChunk c a cs = .ok r) :
    (keyList r.2.store.messages = keyList cs.store.messages ∧ r.2.nextId = cs.nextId) ∨
    (∃ mid, keyList r.2.store.messages = keyList cs.store.messages ++ [(mid, "tool")] ∧
      cs.nextId ≤ r.2.nextId) ∨
    (∃ role ty, (ty = "bot" ∨ ty = "routing") ∧
      keyList r.2.store.messages =
        keyList cs.store.messages ++ [(MsgId.fresh role cs.nextId, ty)] ∧
      r.2.nextId = cs.nextId + 1) := by
  unfold processStreamChunk at h
  split at h
  · exact absurd h (by simp)
  · rename_i ty hty
    split at h
    · -- routing-start
      unfold handleRoutingStart generateMessageId at h
      split at h
      · exact absurd h (by simp [Except.map])
      · simp [Except.map] at h
        refine Or.inr (Or.inr ⟨"routing", "routing", Or.inr rfl, ?_, ?_⟩)
        · rw [← h]
          simp [keyList_append_one]
        · rw [← h]
    · -- routing-end
      unfold handleRoutingEnd at h
      split at h
      · exact absurd h (by simp [Except.map])
      · refine Or.inl ?_
        split at h <;> simp [Except.map] at h <;> rw [← h]
        · constructor
          · exact updateMessageById_keyList _ _ (fun m => by simp) cs.store
          · rfl
        · exact ⟨rfl, rfl⟩
    · -- text-start
      unfold handleTextStart generateMessageId at h
      simp at h
      refine Or.inr (Or.inr ⟨"assistant", "bot", Or.inl rfl, ?_, ?_⟩)
      · rw [← h]
        simp [keyList_append_one]
      · rw [← h]
    · -- text-delta
      unfold handleTextDelta at h
      refine Or.inl ?_
      split at h
      · exact absurd h (by simp [Except.map])
      · split at h
        · split at h <;> simp [Except.map] at h <;> rw [← h] <;> exact ⟨rfl, rfl⟩
        · simp [Except.map] at h
          rw [← h]
          exact ⟨rfl, rfl⟩
    · -- text-end
      simp only [Except.ok.injEq] at h
      refine Or.inl ?_
      rw [← h]
      unfold handleTextEnd
      split
      · rcases flushTick_keyList cs with ⟨hk, hn⟩
        constructor
        · rw [updateMessageById_keyList _ _ (fun m => by simp)]
          exact hk
        · exact hn
      · exact ⟨rfl, rfl⟩
    · -- tool-call-input-streaming-start
      unfold handleToolCallStart generateMessageId at h
      split at h
      · exact absurd h (by simp [Except.map])
      · refine Or.inr (Or.inl ?_)
        split at h
        rename_i pl hpl x idv csv heq
        simp [Except.map] at h
        rw [← h]
        split at heq
        · injection heq with h1 h2
          subst h1
          subst h2
          exact ⟨MsgId.fresh "tool" cs.nextId, by simp [keyList_append_one], Nat.le_succ _⟩
        · injection heq with h1 h2
          subst h1
          subst h2
          exact ⟨MsgId.upstream pl, by simp [keyList_append_one], Nat.le_refl _⟩
    · -- tool-call
      unfold handleToolCall at h
      refine Or.inl ?_
      split at h
      · exact absurd h (by simp [Except.map])
      · rename_i tid htid
        by_cases ht : tid.truthy
        · simp [ht, Except.map] at h
          rw [← h]
          exact ⟨updateMessageById_keyList _ _ (fun m => by simp) cs.store, rfl⟩
        · cases a with
          | none =>
            simp [ht, Except.map] at h
            rw [← h]
            exact ⟨rfl, rfl⟩
          | some t =>
            simp [ht, Except.map] at h
            rw [← h]
            exact ⟨updateMessageById_keyList _ _ (fun m => by simp) cs.store, rfl⟩
    · -- tool-result
      unfold handleToolResult at h
      refine Or.inl ?_
      split at h
      · exact absurd h (by simp)
      · rename_i tid htid
        by_cases ht : tid.truthy
        · simp [ht] at h
          rw [← h]
          refine ⟨?_, rfl⟩
          exact keyList_map _ (fun m => by
            by_cases hm : m.id = MsgId.upstream tid <;> simp [hm]) _
        · cases a with
          | none =>
            simp [ht] at h
            rw [← h]
            exact ⟨rfl, rfl⟩
          | some t =>
            simp [ht] at h
            rw [← h]
            refine ⟨?_, rfl⟩
            exact keyList_map _ (fun m => by
              by_cases hm : m.id = t <;> simp [hm]) _
    · -- finish
      simp only [Except.ok.injEq] at h
      exact Or.inl (by rw [← h]; exact ⟨rfl, rfl⟩)
    · -- default
      simp only [Except.ok.injEq] at h
      exact Or.inl (by rw [← h]; exact ⟨rfl, rfl⟩)

theorem streamInv_mono (n m : Nat) (kl : List (MsgId × String)) (hle : n ≤ m)
    (h : streamInv n kl) : streamInv m kl := by
  refine ⟨fun p hp => ?_, h.2⟩
  obtain ⟨r, k, hk, hlt⟩ := h.1 p hp
  exact ⟨r, k, hk, lt_of_lt_of_le hlt hle⟩

theorem streamInv_append_other (n : Nat) (kl : List (MsgId × String)) (p : MsgId × String)
    (hp : isBotOrRoutingKey p = false) (h : streamInv n kl) : streamInv n (kl ++ [p]) := by
  unfold streamInv at h ⊢
  rw [List.filter_append]
  have hsingle : [p].filter isBotOrRoutingKey = [] := by simp [hp]
  rw [hsingle, List.append_nil]
  exact h

theorem streamInv_append_fresh (n : Nat) (kl : List (MsgId × String)) (r ty : String)
    (hty : isBotOrRoutingKey (MsgId.fresh r n, ty) = true) (h : streamInv n kl) :
    streamInv (n + 1) (kl ++ [(MsgId.fresh r n, ty)]) := by
  unfold streamInv at h ⊢
  rw [List.filter_append]
  have hsingle : [((MsgId.fresh r n : MsgId), ty)].filter isBotOrRoutingKey =
      [(MsgId.fresh r n, ty)] := by simp [hty]
  rw [hsingle]
  constructor
  · intro p hp
    rcases List.mem_append.mp hp with hin | hin
    · obtain ⟨r1, k, hk, hlt⟩ := h.1 p hin
      exact ⟨r1, k, hk, Nat.lt_succ_of_lt hlt⟩
    · rcases List.mem_singleton.mp hin with rfl
      exact ⟨r, n, rfl, Nat.lt_succ_self n⟩
  · rw [List.pairwise_append]
    refine ⟨h.2, List.pairwise_singleton _ _, ?_⟩
    intro x hx y hy
    rcases List.mem_singleton.mp hy with rfl
    obtain ⟨r1, k, hk, hlt⟩ := h.1 x hx
    rw [hk]
    intro hcon
    injection hcon with h1 h2
    exact absurd h2 (Nat.ne_of_lt hlt)

theorem applyChunk_inv (c : JsValue) (a : Option MsgId) (cs : ClientState)
    (h : streamInv cs.nextId (keyList cs.store.messages)) :
    streamInv (applyChunk c a cs).2.nextId
      (keyList (applyChunk c a cs).2.store.messages) := by
  unfold applyChunk
  cases hp : processStreamChunk c a cs with
  | error e => exact h
  | ok r =>
    rcases processStreamChunk_shape c a cs r hp with ⟨hk, hn⟩ | ⟨mid, hk, hn⟩ |
      ⟨role, ty, hty, hk, hn⟩
    · rw [show (match (Except.ok r : Except Unit (Option MsgId × ClientState)) with
        | .ok r => r | .error _ => (a, cs)) = r from rfl, hk, hn]
      exact h
    · rw [show (match (Except.ok r : Except Unit (Option MsgId × ClientState)) with
        | .ok r => r | .error _ => (a, cs)) = r from rfl, hk]
      exact streamInv_append_other _ _ _ (by simp [isBotOrRoutingKey]) (streamInv_mono _ _ _ hn h)
    · rw [show (match (Except.ok r : Except Unit (Option MsgId × ClientState)) with
        | .ok r => r | .error _ => (a, cs)) = r from rfl, hk, hn]
      refine streamInv_append_fresh _ _ _ _ ?_ h
      rcases hty with rfl | rfl <;> simp [isBotOrRoutingKey]

theorem flushTick_inv (cs : ClientState)
    (h : streamInv cs.nextId (keyList cs.store.messages)) :
    streamInv (flushTick cs).nextId (keyList (flushTick cs).store.messages) := by
  rcases flushTick_keyList cs with ⟨hk, hn⟩
  rw [hk, hn]
  exact h

theorem runClientItems_inv (items : List ClientItem) :
    ∀ (a : Option MsgId) (cs : ClientState),
    streamInv cs.nextId (keyList cs.store.messages) →
    streamInv (runClientItems items a cs).2.nextId
      (keyList (runClientItems items a cs).2.store.messages) := by
  induction items with
  | nil => exact fun a cs h => h
  | cons it rest ih =>
    intro a cs h
    cases it with
    | ev c =>
      rw [runClientItems]
      have hstep := applyChunk_inv c a cs h
      cases hac : applyChunk c a cs with
      | mk a1 cs1 =>
        rw [hac] at hstep
        exact ih a1 cs1 hstep
    | tick =>
      rw [runClientItems]
      exact ih a (flushTick cs) (flushTick_inv cs h)

theorem length_le_one_of_const_id (l : List Msg) (i : MsgId)
    (hp : l.Pairwise (fun x y => x.id ≠ y.id)) (hall : ∀ x ∈ l, x.id = i) :
    l.length ≤ 1 := by
  match l, hp with
  | [], _ => simp
  | [x], _ => simp
  | x :: y :: t, hp =>
    exact absurd ((hall x (by simp)).trans (hall y (by simp)).symm)
      ((List.pairwise_cons.mp hp).1 y (by simp))

/-- C9: after any sequence of reducer items (decoded stream chunks and
animation-frame flushes) starting from the initial client state, at most one
message of type `bot` or `routing` tied to the currently-active id tracked by
the reducer has `isStreaming === true`: lifecycle-start handlers mint fresh ids
and the active id always refers to at most one such message. -/
theorem at_most_one_active_streaming (items : List ClientItem) :
    ((runClientItems items none initialClientState).2.store.messages.filter
      (fun m => isBotOrRouting m && (m.isStreaming == some true) &&
        ((runClientItems items none initialClientState).1 == some m.id))).length ≤ 1 := by
  have hinv := runClientItems_inv items none initialClientState
    ⟨fun p hp => absurd hp (by simp [initialClientState, initialChatState, keyList]),
     by simp [initialClientState, initialChatState, keyList]⟩
  have hpair : ((runClientItems items none initialClientState).2.store.messages.filter
      (fun m => isBotOrRoutingKey (m.id, m.type))).Pairwise (fun x y => x.id ≠ y.id) := by
    have h2 := hinv.2
    rw [keyList, List.filter_map] at h2
    have h3 := List.pairwise_map.mp h2
    exact h3
  cases hA : (runClientItems items none initialClientState).1 with
  | none => simp
  | some i =>
    have key := hpair.filter
      (fun m => isBotOrRouting m && (m.isStreaming == some true) && (some i == some m.id))
    rw [List.filter_filter] at key
    have heq : ((runClientItems items none initialClientState).2.store.messages.filter
        (fun m => isBotOrRouting m && (m.isStreaming == some true) && (some i == some m.id) &&
          isBotOrRoutingKey (m.id, m.type))) =
        ((runClientItems items none initialClientState).2.store.messages.filter
          (fun m => isBotOrRouting m && (m.isStreaming == some true) && (some i == some m.id))) := by
      apply List.filter_congr
      intro m _
      cases hb : isBotOrRouting m <;>
        simp [show isBotOrRoutingKey (m.id, m.type) = isBotOrRouting m from rfl, hb]
    rw [heq] at key
    refine length_le_one_of_const_id _ i key ?_
    intro x hx
    have hmem := (List.mem_filter.mp hx).2
    simp only [Bool.and_eq_true, beq_iff_eq, Option.some.injEq] at hmem
    exact hmem.2.symm

end C9Theorems

section C8Theorems

theorem jsSplitNLChars_ne_nil (s : List Char) : jsSplitNLChars s ≠ [] := by
  induction s with
  | nil => simp [jsSplitNLChars]
  | cons c rest ih =>
    rw [jsSplitNLChars]
    by_cases hc : c = '\n'
    · simp [hc]
    · rw [if_neg hc]
      cases h : jsSplitNLChars rest <;> simp

theorem jsSplitNLChars_no_nl (s : List Char) :
    ∀ p ∈ jsSplitNLChars s, '\n' ∉ p := by
  induction s with
  | nil => simp [jsSplitNLChars]
  | cons c rest ih =>
    rw [jsSplitNLChars]
    by_cases hc : c = '\n'
    · rw [if_pos hc]
      intro p hp
      rcases List.mem_cons.mp hp with rfl | hp
      · simp
      · exact ih p hp
    · rw [if_neg hc]
      cases h : jsSplitNLChars rest with
      | nil => exact absurd h (jsSplitNLChars_ne_nil rest)
      | cons l ls =>
        intro p hp
        rcases List.mem_cons.mp hp with rfl | hp
        · intro hmem
          rcases List.mem_cons.mp hmem with rfl | hmem
          · exact hc rfl
          · exact ih l (h ▸ List.mem_cons_self l ls) hmem
        · exact ih p (h ▸ List.mem_cons_of_mem l hp)

theorem jsSplitNLChars_of_no_nl (s : List Char) (h : '\n' ∉ s) :
    jsSplitNLChars s = [s] := by
  induction s with
  | nil => simp [jsSplitNLChars]
  | cons c rest ih =>
    rw [jsSplitNLChars]
    have hc : c ≠ '\n' := fun hcc => h (hcc ▸ List.mem_cons_self c rest)
    rw [if_neg hc, ih (fun hm => h (List.mem_cons_of_mem c hm))]

theorem jsSplitNLChars_append (a b : List Char) :
    jsSplitNLChars (a ++ b) =
      (jsSplitNLChars a).dropLast ++
        mergeHeadChars ((jsSplitNLChars a).getLastD []) (jsSplitNLChars b) := by
  induction a with
  | nil =>
    cases hsb : jsSplitNLChars b with
    | nil => exact absurd hsb (jsSplitNLChars_ne_nil b)
    | cons h r => simp [jsSplitNLChars, mergeHeadChars, hsb]
  | cons c a ih =>
    by_cases hc : c = '\n'
    · rw [List.cons_append, jsSplitNLChars, if_pos hc, jsSplitNLChars, if_pos hc, ih]
      cases hl : jsSplitNLChars a with
      | nil => exact absurd hl (jsSplitNLChars_ne_nil a)
      | cons h r => simp [List.getLastD_cons]
    · rw [List.cons_append, jsSplitNLChars, if_neg hc, jsSplitNLChars, if_neg hc, ih]
      cases hl : jsSplitNLChars a with
      | nil => exact absurd hl (jsSplitNLChars_ne_nil a)
      | cons h r =>
        cases hsb : jsSplitNLChars b with
        | nil => exact absurd hsb (jsSplitNLChars_ne_nil b)
        | cons bh br =>
          cases r with
          | nil => simp [mergeHeadChars, List.getLastD_cons]
          | cons h2 t => simp [mergeHeadChars, List.getLastD_cons]

theorem mapDropLast {α β : Type} (f : α → β) (l : List α) :
    (l.map f).dropLast = l.dropLast.map f := by
  induction l with
  | nil => rfl
  | cons a l ih => cases l <;> simp_all

theorem mapGetLastD (l : List (List Char)) :
    ∀ d : List Char,
    (l.map (fun x => (⟨x⟩ : String))).getLastD ⟨d⟩ = ⟨l.getLastD d⟩ := by
  induction l with
  | nil => intro d; rfl
  | cons a l ih => intro d; simp only [List.map_cons, List.getLastD_cons, ih]

theorem mergeHeadStr_map (t : List Char) (l : List (List Char)) :
    mergeHeadStr (⟨t⟩ : String) (l.map fun x => (⟨x⟩ : String)) =
      (mergeHeadChars t l).map fun x => (⟨x⟩ : String) := by
  cases l with
  | nil => rfl
  | cons h r => rfl

theorem jsSplitNL_append (s t : String) :
    jsSplitNL (s ++ t) =
      (jsSplitNL s).dropLast ++
        mergeHeadStr ((jsSplitNL s).getLastD "") (jsSplitNL t) := by
  unfold jsSplitNL
  rw [String.data_append, jsSplitNLChars_append, List.map_append, mapDropLast,
      show ("" : String) = ⟨[]⟩ from rfl, mapGetLastD, mergeHeadStr_map]

theorem jsSplitNL_of_no_nl (s : String) (h : ('\n' ∈ s.data) = False) :
    jsSplitNL s = [s] := by
  unfold jsSplitNL
  rw [jsSplitNLChars_of_no_nl s.data (by rw [h]; exact id)]
  rfl

theorem jsTrim_eq_empty_iff (s : String) :
    jsTrim s = "" ↔ ∀ c ∈ s.data, isJsWhitespace c = true := by
  constructor
  · intro h c hc
    have hd : ((s.data.dropWhile isJsWhitespace).reverse.dropWhile
        isJsWhitespace).reverse = [] := congrArg String.data h
    rw [List.reverse_eq_nil_iff, List.dropWhile_eq_nil_iff] at hd
    have hall : ∀ a ∈ s.data.dropWhile isJsWhitespace, isJsWhitespace a = true := by
      intro a ha
      exact hd a (List.mem_reverse.mpr ha)
    rcases List.mem_append.mp
        ((List.takeWhile_append_dropWhile (p := isJsWhitespace) (l := s.data)) ▸ hc) with
      hin | hin
    · exact List.mem_takeWhile_imp hin
    · exact hall c hin
  · intro h
    have hnil : s.data.dropWhile isJsWhitespace = [] :=
      List.dropWhile_eq_nil_iff.mpr h
    unfold jsTrim
    rw [hnil]
    rfl

theorem jsTrim_prefix_blank (s t : String) (h : jsTrim (s ++ t) = "") :
    jsTrim s = "" := by
  rw [jsTrim_eq_empty_iff] at h ⊢
  intro c hc
  refine h c ?_
  rw [String.data_append]
  exact List.mem_append_left _ hc

theorem dropAppendExact {α : Type} (l1 l2 : List α) :
    ∀ n, n ≤ l1.length → (l1 ++ l2).drop n = l1.drop n ++ l2 := by
  induction l1 with
  | nil =>
    intro n hn
    rw [Nat.le_zero.mp hn]
    rfl
  | cons a l ih =>
    intro n hn
    cases n with
    | zero => rfl
    | succ m => exact ih m (Nat.le_of_succ_le_succ hn)

theorem dropAppendShift {α : Type} (l1 l2 : List α) (n : Nat) :
    (l1 ++ l2).drop (l1.length + n) = l2.drop n := by
  induction l1 with
  | nil => simp
  | cons a l ih => simp [Nat.succ_add, ih]

theorem processStreamLines_append (parse : String → Option JsValue) (l1 l2 : List String) :
    ∀ (a : Option MsgId) (cs : ClientState),
    processStreamLines parse (l1 ++ l2) a cs =
      (if (processStreamLines parse l1 a cs).2.2 = true
       then processStreamLines parse l1 a cs
       else processStreamLines parse l2 (processStreamLines parse l1 a cs).1
              (processStreamLines parse l1 a cs).2.1) := by
  induction l1 with
  | nil => intro a cs; simp [processStreamLines]
  | cons line l1 ih =>
    intro a cs
    by_cases h1 : jsTrim line = ""
    · simp only [List.cons_append, processStreamLines, if_pos h1]
      exact ih a cs
    · by_cases h2 : startsWithData line
      · cases hr : processSSEDataLine parse (sliceFrom6 line) a cs with
        | mk a1 cs1 =>
          by_cases h3 : sliceFrom6 line = "[DONE]"
          · simp only [List.cons_append, processStreamLines, if_neg h1, if_pos h2, hr,
              if_pos h3]
            simp
          · simp only [List.cons_append, processStreamLines, if_neg h1, if_pos h2, hr,
              if_neg h3]
            exact ih a1 cs1
      · simp only [List.cons_append, processStreamLines, if_neg h1, if_neg h2]
        exact ih a cs

theorem processStreamLines_break_mem (parse : String → Option JsValue) (l : List String) :
    ∀ (a : Option MsgId) (cs : ClientState),
    (processStreamLines parse l a cs).2.2 = true → "data: [DONE]" ∈ l := by
  induction l with
  | nil =>
    intro a cs h
    simp [processStreamLines] at h
  | cons line l ih =>
    intro a cs h
    by_cases h1 : jsTrim line = ""
    · simp only [processStreamLines, if_pos h1] at h
      exact List.mem_cons_of_mem _ (ih _ _ h)
    · by_cases h2 : startsWithData line
      · cases hr : processSSEDataLine parse (sliceFrom6 line) a cs with
        | mk a1 cs1 =>
          by_cases h3 : sliceFrom6 line = "[DONE]"
          · have hline : line = "data: [DONE]" := by
              cases line with
              | mk d =>
                unfold startsWithData at h2
                unfold sliceFrom6 at h3
                have hpre : "data: ".data <+: d := List.isPrefixOf_iff_prefix.mp h2
                obtain ⟨r, hr2⟩ := hpre
                have hd6 : d.drop 6 = "[DONE]".data := congrArg String.data h3
                rw [← hr2] at hd6
                have hdl : ("data: ".data ++ r).drop 6 = r := by
                  rw [show (6 : Nat) = "data: ".data.length from rfl]
                  exact List.drop_left _ _
                rw [hdl] at hd6
                rw [← hr2, hd6]
                rfl
            rw [hline]
            exact List.mem_cons_self _ _
          · simp only [processStreamLines, if_neg h1, if_pos h2, hr, if_neg h3] at h
            exact List.mem_cons_of_mem _ (ih _ _ h)
      · simp only [processStreamLines, if_neg h1, if_neg h2] at h
        exact List.mem_cons_of_mem _ (ih _ _ h)

theorem getDAppendShift {α : Type} (l1 l2 : List α) (d : α) (n : Nat) :
    (l1 ++ l2).getD (l1.length + n) d = l2.getD n d := by
  induction l1 with
  | nil => simp
  | cons a l ih =>
    simp only [List.cons_append, List.length_cons, Nat.succ_add, List.getD_cons_succ]
    exact ih

theorem noDataAfterDone_blank_after (s : String) (l1 l2 : List String)
    (hs : jsSplitNL s = l1 ++ l2) (hd : noDataAfterDone s = true)
    (hmem : "data: [DONE]" ∈ l1) : ∀ p ∈ l2, jsTrim p = "" := by
  intro p hp
  simp only [noDataAfterDone, hs] at hd
  obtain ⟨i, hi, hget⟩ := List.getElem_of_mem hmem
  have hi2 : i < (l1 ++ l2).length := by
    rw [List.length_append]
    omega
  have hstep := List.all_eq_true.mp hd i (List.mem_range.mpr hi2)
  have hgd : (l1 ++ l2).getD i "" = "data: [DONE]" := by
    rw [List.getD_eq_getElem _ _ hi2, List.getElem_append_left hi, hget]
  rw [hgd] at hstep
  simp only [beq_self_eq_true, Bool.not_true, Bool.false_or] at hstep
  have hdrop : (l1 ++ l2).drop (i + 1) = l1.drop (i + 1) ++ l2 :=
    dropAppendExact l1 l2 (i + 1) hi
  rw [hdrop] at hstep
  have := List.all_eq_true.mp hstep p (List.mem_append_right _ hp)
  exact eq_of_beq this

theorem noDataAfterDone_suffix (s t : String) (l1 : List String)
    (hs : jsSplitNL s = l1 ++ jsSplitNL t) (hd : noDataAfterDone s = true) :
    noDataAfterDone t = true := by
  simp only [noDataAfterDone] at hd ⊢
  rw [hs] at hd
  rw [List.all_eq_true]
  intro i hi
  rw [List.mem_range] at hi
  cases hq : (jsSplitNL t).getD i "" == "data: [DONE]" with
  | false => simp
  | true =>
    have hi2 : l1.length + i < (l1 ++ jsSplitNL t).length := by
      rw [List.length_append]
      omega
    have hstep := List.all_eq_true.mp hd (l1.length + i) (List.mem_range.mpr hi2)
    have hgd : (l1 ++ jsSplitNL t).getD (l1.length + i) "" = (jsSplitNL t).getD i "" :=
      getDAppendShift l1 (jsSplitNL t) "" i
    rw [hgd, hq] at hstep
    simp only [Bool.not_true, Bool.false_or] at hstep
    have hdrop : (l1 ++ jsSplitNL t).drop (l1.length + i + 1) = (jsSplitNL t).drop (i + 1) := by
      rw [Nat.add_assoc]
      exact dropAppendShift l1 (jsSplitNL t) (i + 1)
    rw [hdrop] at hstep
    rw [hstep]
    simp

theorem memOfGetLastQ {α : Type} (l : List α) (x : α) : l.getLast? = some x → x ∈ l := by
  induction l with
  | nil => intro h; simp [List.getLast?] at h
  | cons a t ih =>
    intro h
    cases t with
    | nil =>
      simp [List.getLast?] at h
      simp [h]
    | cons b t2 =>
      rw [List.getLast?_cons_cons] at h
      exact List.mem_cons_of_mem _ (ih h)

theorem getLastQAppend {α : Type} (l1 l2 : List α) (h : l2 ≠ []) :
    (l1 ++ l2).getLast? = l2.getLast? := by
  induction l1 with
  | nil => rfl
  | cons a t ih =>
    cases ht : t ++ l2 with
    | nil => exact absurd (List.append_eq_nil.mp ht).2 h
    | cons x xs =>
      rw [List.cons_append, ht, List.getLast?_cons_cons, ← ht, ih]

theorem dropLastAppend {α : Type} (l1 l2 : List α) (h : l2 ≠ []) :
    (l1 ++ l2).dropLast = l1 ++ l2.dropLast := by
  induction l1 with
  | nil => rfl
  | cons a t ih =>
    cases ht : t ++ l2 with
    | nil => exact absurd (List.append_eq_nil.mp ht).2 h
    | cons x xs =>
      rw [List.cons_append, ht, List.dropLast_cons₂, ← ht, ih, List.cons_append]

theorem splitNL_getLast_no_nl (s : String) :
    '\n' ∉ (((jsSplitNL s).getLast?).getD "").data := by
  cases hq : (jsSplitNL s).getLast? with
  | none => simp
  | some p =>
    have hp : p ∈ jsSplitNL s := memOfGetLastQ _ _ hq
    unfold jsSplitNL at hp
    obtain ⟨l, hl, rfl⟩ := List.mem_map.mp hp
    simpa using jsSplitNLChars_no_nl s.data l hl

theorem processStreamGo_nil (parse : String → Option JsValue) (buffer : String)
    (a : Option MsgId) (cs : ClientState) :
    processStreamGo parse [] buffer a cs =
      if jsTrim buffer ≠ "" then (processStreamLines parse [buffer] a cs).2.1 else cs := by
  rw [processStreamGo]

theorem processStreamGo_cons (parse : String → Option JsValue) (c : String)
    (rest : List String) (buffer : String) (a : Option MsgId) (cs : ClientState) :
    processStreamGo parse (c :: rest) buffer a cs =
      (if (processStreamLines parse (jsSplitNL (buffer ++ c)).dropLast a cs).2.2 = true then
        (if jsTrim (((jsSplitNL (buffer ++ c)).getLast?).getD "") ≠ "" then
          (processStreamLines parse [((jsSplitNL (buffer ++ c)).getLast?).getD ""]
            (processStreamLines parse (jsSplitNL (buffer ++ c)).dropLast a cs).1
            (processStreamLines parse (jsSplitNL (buffer ++ c)).dropLast a cs).2.1).2.1
         else (processStreamLines parse (jsSplitNL (buffer ++ c)).dropLast a cs).2.1)
       else processStreamGo parse rest (((jsSplitNL (buffer ++ c)).getLast?).getD "")
         (processStreamLines parse (jsSplitNL (buffer ++ c)).dropLast a cs).1
         (processStreamLines parse (jsSplitNL (buffer ++ c)).dropLast a cs).2.1) := by
  rw [processStreamGo]

theorem processStreamGo_join (parse : String → Option JsValue) (chunks : List String) :
    ∀ (buffer : String) (a : Option MsgId) (cs : ClientState),
    ('\n' ∈ buffer.data) = False →
    noDataAfterDone (buffer ++ joinChunks chunks) = true →
    processStreamGo parse chunks buffer a cs =
      processStreamGo parse [buffer ++ joinChunks chunks] "" a cs := by
  induction chunks with
  | nil =>
    intro buffer a cs hnl _
    have hb : buffer ++ joinChunks [] = buffer := by
      rw [show joinChunks [] = "" from rfl]
      simp
    rw [hb, processStreamGo_cons, processStreamGo_nil]
    have hEA : ("" : String) ++ buffer = buffer := by simp
    rw [hEA, jsSplitNL_of_no_nl buffer hnl]
    simp [processStreamLines, processStreamGo_nil]
  | cons c rest ih =>
    intro buffer a cs hnl hnd
    have hjoin : buffer ++ joinChunks (c :: rest) = (buffer ++ c) ++ joinChunks rest := by
      rw [show joinChunks (c :: rest) = c ++ joinChunks rest from rfl, String.append_assoc]
    rw [hjoin] at hnd ⊢
    have hBnl : ('\n' ∈ (((jsSplitNL (buffer ++ c)).getLast?).getD "").data) = False :=
      eq_false (splitNL_getLast_no_nl (buffer ++ c))
    have hsplitB : jsSplitNL ((((jsSplitNL (buffer ++ c)).getLast?).getD "") ++ joinChunks rest) =
        mergeHeadStr (((jsSplitNL (buffer ++ c)).getLast?).getD "")
          (jsSplitNL (joinChunks rest)) := by
      rw [jsSplitNL_append, jsSplitNL_of_no_nl _ hBnl]
      simp [List.getLastD_cons]
    have hsplit1 : jsSplitNL ((buffer ++ c) ++ joinChunks rest) =
        (jsSplitNL (buffer ++ c)).dropLast ++
          jsSplitNL ((((jsSplitNL (buffer ++ c)).getLast?).getD "") ++ joinChunks rest) := by
      rw [jsSplitNL_append, hsplitB, List.getLastD_eq_getLast?]
    have hSJne : jsSplitNL (joinChunks rest) ≠ [] := by
      unfold jsSplitNL
      intro hcon
      exact jsSplitNLChars_ne_nil _ (List.map_eq_nil_iff.mp hcon)
    have hSBne : jsSplitNL ((((jsSplitNL (buffer ++ c)).getLast?).getD "") ++
        joinChunks rest) ≠ [] := by
      unfold jsSplitNL
      intro hcon
      exact jsSplitNLChars_ne_nil _ (List.map_eq_nil_iff.mp hcon)
    rw [processStreamGo_cons parse c rest buffer a cs,
        processStreamGo_cons parse ((buffer ++ c) ++ joinChunks rest) [] "" a cs]
    have hEA : ("" : String) ++ ((buffer ++ c) ++ joinChunks rest) =
        (buffer ++ c) ++ joinChunks rest := by simp
    rw [hEA, hsplit1, dropLastAppend _ _ hSBne, getLastQAppend _ _ hSBne,
        processStreamLines_append parse ((jsSplitNL (buffer ++ c)).dropLast) _ a cs]
    cases hbr : (processStreamLines parse (jsSplitNL (buffer ++ c)).dropLast a cs).2.2 with
    | true =>
      have hmem := processStreamLines_break_mem parse _ a cs hbr
      have hblank := noDataAfterDone_blank_after ((buffer ++ c) ++ joinChunks rest)
        ((jsSplitNL (buffer ++ c)).dropLast)
        (jsSplitNL ((((jsSplitNL (buffer ++ c)).getLast?).getD "") ++ joinChunks rest))
        hsplit1 hnd hmem
      have hBblank : jsTrim (((jsSplitNL (buffer ++ c)).getLast?).getD "") = "" := by
        cases hsj : jsSplitNL (joinChunks rest) with
        | nil => exact absurd hsj hSJne
        | cons hh tt =>
          refine jsTrim_prefix_blank _ hh (hblank _ ?_)
          rw [hsplitB, hsj]
          exact List.mem_cons_self _ _
      have hWblank : jsTrim (((jsSplitNL ((((jsSplitNL (buffer ++ c)).getLast?).getD "") ++
          joinChunks rest)).getLast?).getD "") = "" := by
        cases hgl : (jsSplitNL ((((jsSplitNL (buffer ++ c)).getLast?).getD "") ++
            joinChunks rest)).getLast? with
        | none => rfl
        | some p => exact hblank p (memOfGetLastQ _ _ hgl)
      simp only [reduceIte, hbr]
      rw [if_neg (by rw [hBblank]; simp), if_neg (by rw [hWblank]; simp)]
    | false =>
      have hndB : noDataAfterDone ((((jsSplitNL (buffer ++ c)).getLast?).getD "") ++
          joinChunks rest) = true :=
        noDataAfterDone_suffix _ _ _ hsplit1 hnd
      rw [if_neg Bool.false_ne_true, if_neg Bool.false_ne_true]
      rw [ih (((jsSplitNL (buffer ++ c)).getLast?).getD "") _ _ hBnl hndB]
      rw [processStreamGo_cons parse ((((jsSplitNL (buffer ++ c)).getLast?).getD "") ++
        joinChunks rest) [] "" _ _]
      have hEA2 : ("" : String) ++ ((((jsSplitNL (buffer ++ c)).getLast?).getD "") ++
          joinChunks rest) =
          (((jsSplitNL (buffer ++ c)).getLast?).getD "") ++ joinChunks rest := by
        simp
      rw [hEA2]

/-- C8 counterexample: the client SSE decoder is NOT split-invariant for
arbitrary byte streams.  The stream `"data: [DONE]\n\ndata: X"` delivered
whole processes the dangling `data: X` tail after the `[DONE]` break (one
message is created when `X` parses to a `text-start` chunk), while the
delivery split as `["data: [DONE]\n", "\ndata: X"]` stops at the sentinel
with the tail still blank-buffered and creates no message. -/
theorem sse_decoder_split_variance_counterexample :
    joinChunks ["data: [DONE]\n", "\ndata: X"] = joinChunks ["data: [DONE]\n\ndata: X"] ∧
    processStreamResponse
        (fun s => if s = "X" then some (JsValue.obj [("type", JsValue.str "text-start")])
                  else none)
        ["data: [DONE]\n\ndata: X"] initialClientState ≠
      processStreamResponse
        (fun s => if s = "X" then some (JsValue.obj [("type", JsValue.str "text-start")])
                  else none)
        ["data: [DONE]\n", "\ndata: X"] initialClientState := by
  constructor
  · rfl
  · decide

/-- C8 (amended): the client SSE decoder is split-invariant for every SSE
byte stream in which no non-blank line follows a `data: [DONE]` line — in
particular for every stream the relay can produce, since the relay only emits
`[DONE]` as its final frame.  For such streams, every partition of the body
into chunks at arbitrary boundaries (including mid-line) yields the same
final conversation state as delivering the body whole: only complete lines
are processed, and the last possibly-incomplete line is re-buffered until
more bytes arrive or the stream ends, at which point it is flushed once
more. -/
theorem sse_decoder_chunking_invariant (parse : String → Option JsValue)
    (chunks : List String) (cs : ClientState)
    (h : noDataAfterDone (joinChunks chunks) = true) :
    processStreamResponse parse chunks cs =
      processStreamResponse parse [joinChunks chunks] cs := by
  unfold processStreamResponse
  have h2 : noDataAfterDone ("" ++ joinChunks chunks) = true := by
    rw [show ("" : String) ++ joinChunks chunks = joinChunks chunks by simp]
    exact h
  have hmain := processStreamGo_join parse chunks "" none cs (eq_false (by decide)) h2
  rw [hmain, show ("" : String) ++ joinChunks chunks = joinChunks chunks by simp]

theorem sse_decoder_chunking_invariant_witness :
    noDataAfterDone (joinChunks ["data: x\n", "da", "ta: [DONE]\n", "\n"]) = true ∧
    processStreamResponse (fun _ => none) ["data: x\n", "da", "ta: [DONE]\n", "\n"]
        initialClientState =
      processStreamResponse (fun _ => none)
        [joinChunks ["data: x\n", "da", "ta: [DONE]\n", "\n"]] initialClientState :=
  ⟨by decide,
   sse_decoder_chunking_invariant (fun _ => none)
     ["data: x\n", "da", "ta: [DONE]\n", "\n"] initialClientState (by decide)⟩

end C8Theorems
